import Mathlib

/-! # agent-tool-sandbox: policy check, runner and profile selection

A shallow embedding of `pkg/sandbox/sandbox.go` and `pkg/policy/policy.go`.

Modelling conventions

* A Go `string` is a Lean `String`.  The code only compares, concatenates and
  searches strings (`==`, `+`, `strings.Join`, `strings.Contains`,
  `strings.HasPrefix`, `strings.HasSuffix`); on well-formed UTF-8 text these
  agree byte-wise and character-wise, so the searches are done on the
  character lists.
* Go `int`, `int64` and `time.Duration` are Lean `Int`; the one arithmetic
  operation of the code (`time.Duration(n) * time.Second`) wraps modulo 2^64.
* `float64` (only `MaxCPUSeconds`, only ever compared with 0) is a rational.
* A slice is a `List`; `nil` and the empty slice are both `[]` (the code only
  takes `len` and ranges over slices).
* The operating system is a parameter: `World.Run` gives what `cmd.Run()` and
  the context report for a command, and the clock readings are data.  The
  commands handed to `cmd.Run()` are recorded in an explicit log that
  `Execute` threads through.
-/

/-! ## The `strings` functions used by the code -/

namespace Strings

/-- Substring search on character lists: `sub` occurs somewhere in the first list. -/
def containsChars : List Char → List Char → Bool
  | [], sub => sub.isEmpty
  | c :: t, sub => sub.isPrefixOf (c :: t) || containsChars t sub

/-- Go `strings.Contains(s, substr)`. -/
def Contains (s substr : String) : Bool :=
  containsChars s.data substr.data

/-- Go `strings.HasPrefix(s, p)`. -/
def HasPrefix (s p : String) : Bool :=
  p.data.isPrefixOf s.data

/-- Go `strings.HasSuffix(s, suffix)`. -/
def HasSuffix (s suffix : String) : Bool :=
  suffix.data.isSuffixOf s.data

/-- Go `strings.Join(elems, sep)`. -/
def Join : List String → String → String
  | [], _ => ""
  | [a], _ => a
  | a :: b :: rest, sep => a ++ sep ++ Join (b :: rest) sep

end Strings

/-! ## Package `sandbox` -/

namespace Sandbox

open Strings

/-- Go `time.Second`, in nanoseconds. -/
def Second : Int := 1000000000

/-- The `Config` struct: the sandbox constraints. -/
structure Config where
  AllowedPaths : List String
  DeniedPaths : List String
  ReadOnly : Bool
  AllowNetwork : Bool
  AllowedHosts : List String
  DeniedPorts : List Int
  MaxMemoryMB : Int
  MaxCPUSeconds : ℚ
  Timeout : Int
  WorkDir : String
  Env : List String
deriving DecidableEq

/-- Go `DefaultConfig()`; the fields it does not name keep their zero value. -/
def DefaultConfig : Config :=
  { AllowedPaths := ["/tmp/sandbox"]
    DeniedPaths := ["/etc", "/var", "/root", "/home"]
    ReadOnly := false
    AllowNetwork := false
    AllowedHosts := []
    DeniedPorts := []
    MaxMemoryMB := 256
    MaxCPUSeconds := 30
    Timeout := 30 * Second
    WorkDir := "/tmp/sandbox"
    Env := [] }

/-- The `Result` struct: the outcome of one sandboxed execution. -/
structure Result where
  ExitCode : Int
  Stdout : String
  Stderr : String
  Duration : Int
  Killed : Bool
  Error : String
  Violations : List String
deriving DecidableEq

/-- Go `&Result{}`: every field at its zero value. -/
def Result.zero : Result :=
  { ExitCode := 0, Stdout := "", Stderr := "", Duration := 0, Killed := false,
    Error := "", Violations := [] }

/-- The `Runner` struct. -/
structure Runner where
  config : Config
deriving DecidableEq

/-- Go `NewRunner(cfg)`. -/
def NewRunner (cfg : Config) : Runner :=
  { config := cfg }

/-- The loop over `r.config.DeniedPaths` in `checkPolicy`: for each denied
entry, one violation if the joined arguments contain it and one if the command
contains it, appended to the violations collected so far. -/
def deniedLoop (allArgs command : String) : List String → List String → List String
  | [], violations => violations
  | denied :: rest, violations =>
    let violations :=
      if Contains allArgs denied then
        violations ++ ["access to denied path: " ++ denied]
      else violations
    let violations :=
      if Contains command denied then
        violations ++ ["command in denied path: " ++ denied]
      else violations
    deniedLoop allArgs command rest violations

/-- The `networkCmds` literal of `checkPolicy`. -/
def networkCmds : List String :=
  ["curl", "wget", "nc", "ncat", "ssh", "scp", "rsync"]

/-- The loop over `networkCmds` in `checkPolicy`. -/
def networkLoop (command : String) : List String → List String → List String
  | [], violations => violations
  | nc :: rest, violations =>
    let violations :=
      if command == nc || HasSuffix command ("/" ++ nc) then
        violations ++ ["network command '" ++ nc ++ "' not allowed"]
      else violations
    networkLoop command rest violations

/-- The `dangerousCmds` literal of `checkPolicy`. -/
def dangerousCmds : List String :=
  ["rm -rf /", "mkfs", "dd if=/dev/zero", ":()\x7b :|:& \x7d;:"]

/-- The loop over `dangerousCmds` in `checkPolicy`. -/
def dangerousLoop (command allArgs : String) : List String → List String → List String
  | [], violations => violations
  | dc :: rest, violations =>
    let fullCmd := command ++ " " ++ allArgs
    let violations :=
      if Contains fullCmd dc then
        violations ++ ["dangerous command pattern: " ++ dc]
      else violations
    dangerousLoop command allArgs rest violations

/-- Go `(r *Runner) checkPolicy(command, args)`: the list of violations, in
the order the code appends them. -/
def Runner.checkPolicy (r : Runner) (command : String) (args : List String) : List String :=
  let violations : List String := []
  let allArgs := Join args " "
  let violations := deniedLoop allArgs command r.config.DeniedPaths violations
  let violations :=
    if Contains allArgs ".." then violations ++ ["path traversal detected"]
    else violations
  let violations :=
    if !r.config.AllowNetwork then networkLoop command networkCmds violations
    else violations
  dangerousLoop command allArgs dangerousCmds violations

/-- What `ctx.Err()` can be after the run. -/
inductive CtxErr where
  | none
  | Canceled
  | DeadlineExceeded
deriving DecidableEq

/-- The error returned by `cmd.Run()`: `nil`, an `*exec.ExitError` with its
exit code, or any other error with its text. -/
inductive RunErr where
  | none
  | ExitError (code : Int)
  | other (text : String)
deriving DecidableEq

/-- The command built by `Execute`: the timeout given to
`context.WithTimeout`, the program and its arguments, `cmd.Dir`, `cmd.Env`. -/
structure Cmd where
  Timeout : Int
  Path : String
  Args : List String
  Dir : String
  Env : List String
deriving DecidableEq

/-- What one `cmd.Run()` reports back to `Execute`: the captured output, the
error of `Run`, the state of the context and the reading of
`time.Since(start)` taken right after `Run` returned. -/
structure ProcessRun where
  Stdout : String
  Stderr : String
  err : RunErr
  ctxErr : CtxErr
  Elapsed : Int
deriving DecidableEq

/-- The environment of one `Execute` call: the process launcher and the
reading of `time.Since(start)` on the policy-violation path. -/
structure World where
  Run : Cmd → ProcessRun
  SincePolicy : Int

/-- Go `(r *Runner) Execute(ctx, command, args)`.  The last argument is the
log of commands handed to `cmd.Run()` so far; the updated log is returned
next to the `Result`. -/
def Runner.Execute (w : World) (r : Runner) (command : String) (args : List String)
    (started : List Cmd) : Result × List Cmd :=
  let result := Result.zero
  let violations := r.checkPolicy command args
  if violations.length > 0 then
    let result := { result with Violations := violations }
    let result := { result with Error := "policy violation: " ++ Join violations "; " }
    let result := { result with ExitCode := -1 }
    let result := { result with Duration := w.SincePolicy }
    (result, started)
  else
    let timeout := if r.config.Timeout = 0 then 30 * Second else r.config.Timeout
    let cmd : Cmd :=
      { Timeout := timeout, Path := command, Args := args,
        Dir := if r.config.WorkDir ≠ "" then r.config.WorkDir else "",
        Env := r.config.Env }
    let run := w.Run cmd
    let started := started ++ [cmd]
    let result := { result with Duration := run.Elapsed }
    let result := { result with Stdout := run.Stdout }
    let result := { result with Stderr := run.Stderr }
    if run.ctxErr = CtxErr.DeadlineExceeded then
      ({ result with Killed := true, Error := "timeout exceeded", ExitCode := -1 }, started)
    else
      match run.err with
      | RunErr.none => (result, started)
      | RunErr.ExitError code => ({ result with ExitCode := code }, started)
      | RunErr.other text => ({ result with ExitCode := -1, Error := text }, started)

/-- The loop over `r.config.DeniedPaths` in `ValidatePath`: the first denied
entry that `path` starts with, if any. -/
def firstDeniedPrefix (path : String) : List String → Option String
  | [] => none
  | denied :: rest =>
    if HasPrefix path denied then some denied else firstDeniedPrefix path rest

/-- The loop over `r.config.AllowedPaths` in `ValidatePath`: the final value
of the local `allowed`. -/
def allowedLoop (path : String) : List String → Bool
  | [] => false
  | ap :: rest => if HasPrefix path ap then true else allowedLoop path rest

/-- Go `(r *Runner) ValidatePath(path)`: `Except.ok ()` for `nil`, otherwise
the text of the error. -/
def Runner.ValidatePath (r : Runner) (path : String) : Except String Unit :=
  match firstDeniedPrefix path r.config.DeniedPaths with
  | some denied =>
    Except.error ("path '" ++ path ++ "' is denied (matches " ++ denied ++ ")")
  | none =>
    if Contains path ".." then
      Except.error ("path '" ++ path ++ "' contains traversal")
    else if r.config.AllowedPaths.length > 0 then
      let allowed := allowedLoop path r.config.AllowedPaths
      if !allowed then
        Except.error ("path '" ++ path ++ "' not in allowed list")
      else Except.ok ()
    else Except.ok ()

/-- The loop over `r.config.AllowedHosts` in `ValidateHost`: whether some
entry lets the host through. -/
def hostLoop (host : String) : List String → Bool
  | [] => false
  | ah :: rest =>
    if host == ah || HasSuffix host ("." ++ ah) then true else hostLoop host rest

/-- Go `(r *Runner) ValidateHost(host)`. -/
def Runner.ValidateHost (r : Runner) (host : String) : Except String Unit :=
  if !r.config.AllowNetwork then
    Except.error "network access disabled"
  else if r.config.AllowedHosts.length = 0 then
    Except.ok ()
  else if hostLoop host r.config.AllowedHosts then
    Except.ok ()
  else
    Except.error ("host '" ++ host ++ "' not in allowed list")

/-- A world in which the launcher reports a clean exit with no output. -/
def quietWorld : World :=
  { Run := fun _ =>
      { Stdout := "", Stderr := "", err := RunErr.none, ctxErr := CtxErr.none, Elapsed := 0 }
    SincePolicy := 0 }

/-- A world in which the launcher reports some output and a passed deadline. -/
def timeoutWorld : World :=
  { Run := fun _ =>
      { Stdout := "partial", Stderr := "", err := RunErr.other "signal: killed",
        ctxErr := CtxErr.DeadlineExceeded, Elapsed := 100000000 }
    SincePolicy := 1000 }

/-- The command `Execute` builds once the policy check has passed: the
effective timeout (30 seconds when the configured one is zero), the program
and arguments, the working directory when one is configured, the
environment list. -/
def Runner.builtCmd (r : Runner) (command : String) (args : List String) : Cmd :=
  { Timeout := if r.config.Timeout = 0 then 30 * Second else r.config.Timeout
    Path := command
    Args := args
    Dir := if r.config.WorkDir ≠ "" then r.config.WorkDir else ""
    Env := r.config.Env }

/-- The configuration of `TestValidCommand`: the default one with allowed
path "/", no denied paths and no working directory. -/
def validCommandConfig : Config :=
  { DefaultConfig with AllowedPaths := ["/"], DeniedPaths := [], WorkDir := "" }

/-- The configuration of `TestTimeout`: as `validCommandConfig`, with a
timeout of 100 milliseconds. -/
def timeoutTestConfig : Config :=
  { validCommandConfig with Timeout := 100 * 1000000 }

/-- The configuration of `TestValidateHost`: the default one with the network
enabled and two allowed hosts. -/
def hostTestConfig : Config :=
  { DefaultConfig with
    AllowNetwork := true
    AllowedHosts := ["api.openai.com", "api.anthropic.com"] }

/-- A world in which the launched process prints "hello" and a newline and
exits with status 0 before the deadline. -/
def echoWorld : World :=
  { Run := fun _ =>
      { Stdout := "hello\n", Stderr := "", err := RunErr.none, ctxErr := CtxErr.none,
        Elapsed := 2000000 }
    SincePolicy := 1000 }

/-- A world in which the launched process exits with status 3 before the
deadline, having written to both streams. -/
def exitThreeWorld : World :=
  { Run := fun _ =>
      { Stdout := "out", Stderr := "err", err := RunErr.ExitError 3, ctxErr := CtxErr.none,
        Elapsed := 2000000 }
    SincePolicy := 1000 }

/-- A configuration with the denied paths and the network flag of
`DefaultConfig` and every other field different. -/
def otherFieldsConfig : Config :=
  { AllowedPaths := []
    DeniedPaths := DefaultConfig.DeniedPaths
    ReadOnly := true
    AllowNetwork := DefaultConfig.AllowNetwork
    AllowedHosts := ["example.org"]
    DeniedPorts := [22]
    MaxMemoryMB := 1
    MaxCPUSeconds := 1
    Timeout := 5 * Second
    WorkDir := ""
    Env := ["LANG=C"] }

end Sandbox

/-! ## Package `policy` -/

namespace Policy

open Sandbox

/-- Go `int64` wrap-around: the representative of `x` modulo 2^64 in
`[-2^63, 2^63)`. -/
def wrapInt64 (x : Int) : Int :=
  (x + 2 ^ 63) % 2 ^ 64 - 2 ^ 63

/-- The `ProfileConfig` struct: the JSON-serialisable partial configuration. -/
structure ProfileConfig where
  AllowedPaths : List String
  DeniedPaths : List String
  ReadOnly : Bool
  AllowNetwork : Bool
  AllowedHosts : List String
  MaxMemoryMB : Int
  MaxCPUSeconds : ℚ
  TimeoutSec : Int
deriving DecidableEq

/-- The `Profile` struct. -/
structure Profile where
  Name : String
  Description : String
  ToolPatterns : List String
  Config : ProfileConfig
deriving DecidableEq

/-- The `ProfileSet` struct. -/
structure ProfileSet where
  Profiles : List Profile
  Default : String
deriving DecidableEq

/-- Go `(pc ProfileConfig) ToSandboxConfig()`. -/
def ProfileConfig.ToSandboxConfig (pc : ProfileConfig) : Config :=
  let cfg := DefaultConfig
  let cfg := if pc.AllowedPaths.length > 0 then { cfg with AllowedPaths := pc.AllowedPaths } else cfg
  let cfg := if pc.DeniedPaths.length > 0 then { cfg with DeniedPaths := pc.DeniedPaths } else cfg
  let cfg := { cfg with ReadOnly := pc.ReadOnly }
  let cfg := { cfg with AllowNetwork := pc.AllowNetwork }
  let cfg := if pc.AllowedHosts.length > 0 then { cfg with AllowedHosts := pc.AllowedHosts } else cfg
  let cfg := if pc.MaxMemoryMB > 0 then { cfg with MaxMemoryMB := pc.MaxMemoryMB } else cfg
  let cfg := if pc.MaxCPUSeconds > 0 then { cfg with MaxCPUSeconds := pc.MaxCPUSeconds } else cfg
  let cfg :=
    if pc.TimeoutSec > 0 then { cfg with Timeout := wrapInt64 (pc.TimeoutSec * Second) } else cfg
  cfg

/-- One `for i, p := range ps.Profiles` loop of `FindProfile` that returns
`&ps.Profiles[i]` at the first profile passing `test`: the index `i` of that
profile, counted from `i₀` for the head of the list. -/
def firstIndex (test : Profile → Bool) : List Profile → Nat → Option Nat
  | [], _ => none
  | p :: rest, i => if test p then some i else firstIndex test rest (i + 1)

/-- The inner `for _, pattern := range p.ToolPatterns` loop of the first two
passes: some pattern of the profile equals `name`. -/
def hasPattern (name : String) (p : Profile) : Bool :=
  p.ToolPatterns.any (fun pattern => pattern == name)

/-- Go `(ps *ProfileSet) FindProfile(toolName)`.  The returned pointer
`&ps.Profiles[i]` is the index `i`; `nil` is `none`. -/
def ProfileSet.FindProfile (ps : ProfileSet) (toolName : String) : Option Nat :=
  match firstIndex (hasPattern toolName) ps.Profiles 0 with
  | some i => some i
  | none =>
    match firstIndex (hasPattern "*") ps.Profiles 0 with
    | some i => some i
    | none =>
      if ps.Default ≠ "" then
        firstIndex (fun p => p.Name == ps.Default) ps.Profiles 0
      else none

/-- The zero `ProfileConfig`: what JSON decoding leaves when no field is given. -/
def ProfileConfig.zero : ProfileConfig :=
  { AllowedPaths := [], DeniedPaths := [], ReadOnly := false, AllowNetwork := false,
    AllowedHosts := [], MaxMemoryMB := 0, MaxCPUSeconds := 0, TimeoutSec := 0 }

/-- The `config` of the "restrictive" profile of `sampleProfiles` in
`policy_test.go`. -/
def restrictiveConfig : ProfileConfig :=
  { ProfileConfig.zero with
    AllowedPaths := ["/tmp/sandbox"]
    DeniedPaths := ["/etc", "/var"]
    AllowNetwork := false
    MaxMemoryMB := 128
    TimeoutSec := 10 }

/-- The `config` of the "web-tools" profile of `sampleProfiles`. -/
def webToolsConfig : ProfileConfig :=
  { ProfileConfig.zero with
    AllowedPaths := ["/tmp/sandbox"]
    AllowNetwork := true
    AllowedHosts := ["api.google.com", "api.bing.com"]
    MaxMemoryMB := 256
    TimeoutSec := 30 }

/-- The `config` of the "file-tools" profile of `sampleProfiles`. -/
def fileToolsConfig : ProfileConfig :=
  { ProfileConfig.zero with
    AllowedPaths := ["/tmp/sandbox", "/home/agent/data"]
    DeniedPaths := ["/etc", "/var", "/root"]
    AllowNetwork := false
    TimeoutSec := 15 }

/-- The profile set that `sampleProfiles` of `policy_test.go` decodes to. -/
def sampleProfiles : ProfileSet :=
  { Default := "restrictive"
    Profiles :=
      [ { Name := "restrictive"
          Description := "Default restrictive sandbox"
          ToolPatterns := ["*"]
          Config := restrictiveConfig },
        { Name := "web-tools"
          Description := "Tools that need network access"
          ToolPatterns := ["web_search", "url_fetch"]
          Config := webToolsConfig },
        { Name := "file-tools"
          Description := "File operation tools"
          ToolPatterns := ["read_file", "write_file", "list_files"]
          Config := fileToolsConfig } ] }

/-- A profile set without wildcard profile: the last two profiles of
`sampleProfiles`, with "file-tools" as the named default. -/
def namedDefaultProfiles : ProfileSet :=
  { Default := "file-tools", Profiles := sampleProfiles.Profiles.drop 1 }

/-- A partial configuration whose only field set is a negative memory limit,
as decoded from `\x7b"max_memory_mb": -1\x7d`. -/
def negativeMemoryConfig : ProfileConfig :=
  { ProfileConfig.zero with MaxMemoryMB := -1 }

/-- A partial configuration whose only field set is a timeout of
9,223,372,037 seconds, a value of a 64-bit `int`; its product with 10^9
exceeds 2^63 - 1. -/
def overflowTimeoutConfig : ProfileConfig :=
  { ProfileConfig.zero with TimeoutSec := 9223372037 }

/-- A partial configuration whose only field set is a timeout of 2^55
seconds, a value of a 64-bit `int`; its product with 10^9 is a multiple of
2^64. -/
def zeroWrapTimeoutConfig : ProfileConfig :=
  { ProfileConfig.zero with TimeoutSec := 36028797018963968 }

end Policy

/-! ## Package `audit` -/

namespace Audit

open Sandbox

/-- Go `EventExecutionStart`. -/
def EventExecutionStart : String := "sandbox.execution.start"

/-- Go `EventExecutionComplete`. -/
def EventExecutionComplete : String := "sandbox.execution.complete"

/-- Go `EventPolicyViolation`. -/
def EventPolicyViolation : String := "sandbox.policy.violation"

/-- Go `EventTimeout`. -/
def EventTimeout : String := "sandbox.execution.timeout"

/-- The `Event` struct.  `Timestamp` is `none` for the zero `time.Time`.
`DurationMs` holds the whole number of milliseconds that the code converts to
`float64`; the conversion is exact, since a 64-bit count of nanoseconds is
less than 2^53 milliseconds. -/
structure Event where
  Timestamp : Option Int
  EventType : String
  ToolName : String
  Command : String
  Profile : String
  ExitCode : Int
  DurationMs : Int
  Violations : List String
  Error : String
deriving DecidableEq

/-- The `Logger` struct, seen through what it has handed to its encoder: the
events written so far, oldest first. -/
structure Logger where
  written : List Event
deriving DecidableEq

/-- Go `NewLogger(w)`: nothing written yet. -/
def NewLogger : Logger :=
  { written := [] }

/-- Go `(l *Logger) log(e)`: stamp the event with the current time `now` when
it carries the zero time, then encode it. -/
def Logger.log (l : Logger) (now : Int) (e : Event) : Logger :=
  let e := if e.Timestamp.isNone then { e with Timestamp := some now } else e
  { written := l.written ++ [e] }

/-- The event `LogResult` builds before it calls `l.log`. -/
def resultEvent (toolName command profile : String) (result : Result) : Event :=
  let evt : Event :=
    { Timestamp := none
      EventType := EventExecutionComplete
      ToolName := toolName
      Command := command
      Profile := profile
      ExitCode := result.ExitCode
      DurationMs := Int.tdiv result.Duration 1000000
      Violations := []
      Error := "" }
  let evt := if result.Killed then { evt with EventType := EventTimeout } else evt
  let evt :=
    if result.Violations.length > 0 then
      { evt with EventType := EventPolicyViolation, Violations := result.Violations }
    else evt
  let evt := if result.Error ≠ "" then { evt with Error := result.Error } else evt
  evt

/-- Go `(l *Logger) LogResult(toolName, command, profile, result)`. -/
def Logger.LogResult (l : Logger) (now : Int) (toolName command profile : String)
    (result : Result) : Logger :=
  l.log now (resultEvent toolName command profile result)

/-- A `Result` value with the killed flag set and one violation recorded. -/
def killedWithViolation : Result :=
  { ExitCode := -1, Stdout := "", Stderr := "", Duration := 5000000, Killed := true,
    Error := "timeout exceeded", Violations := ["path traversal detected"] }

end Audit

/-! ## Facts about the string functions -/

namespace Strings

theorem containsChars_iff (s sub : List Char) :
    containsChars s sub = true ↔ sub <:+: s := by
  induction s with
  | nil =>
    cases sub with
    | nil => simp [containsChars]
    | cons a t => simp [containsChars]
  | cons c t ih =>
    simp only [containsChars, Bool.or_eq_true, ih, List.infix_cons_iff]
    rw [List.isPrefixOf_iff_prefix]

theorem Contains_iff (s substr : String) :
    Contains s substr = true ↔ substr.data <:+: s.data :=
  containsChars_iff s.data substr.data

theorem HasSuffix_iff (s suffix : String) :
    HasSuffix s suffix = true ↔ suffix.data <:+ s.data := by
  unfold HasSuffix
  exact List.isSuffixOf_iff_suffix

theorem HasPrefix_iff (s p : String) :
    HasPrefix s p = true ↔ p.data <+: s.data := by
  unfold HasPrefix
  exact List.isPrefixOf_iff_prefix

theorem Join_cons_cons (a b : String) (rest : List String) (sep : String) :
    Join (a :: b :: rest) sep = a ++ sep ++ Join (b :: rest) sep := rfl

/-- Every element of a joined list occurs in the joined string. -/
theorem infix_Join_of_mem (sep : String) :
    ∀ (elems : List String) (a : String), a ∈ elems → a.data <:+: (Join elems sep).data
  | [], a, h => by simp at h
  | [b], a, h => by
    have hab : a = b := by simpa using h
    subst hab
    exact List.infix_refl _
  | b :: c :: rest, a, h => by
    rw [Join_cons_cons, String.data_append, String.data_append]
    rcases List.mem_cons.mp h with hab | hmem
    · subst hab
      exact ⟨[], sep.data ++ (Join (c :: rest) sep).data, by simp⟩
    · have ih := infix_Join_of_mem sep (c :: rest) a hmem
      exact List.IsInfix.trans ih ⟨b.data ++ sep.data, [], by simp⟩

end Strings

/-! ## Facts about `checkPolicy` -/

namespace Sandbox

open Strings

theorem mem_deniedLoop_iff (allArgs command v : String) :
    ∀ (ds acc : List String),
      v ∈ deniedLoop allArgs command ds acc ↔
        v ∈ acc ∨ ∃ d ∈ ds,
          (Contains allArgs d = true ∧ v = "access to denied path: " ++ d) ∨
          (Contains command d = true ∧ v = "command in denied path: " ++ d)
  | [], acc => by simp [deniedLoop]
  | d :: rest, acc => by
    simp only [deniedLoop]
    rw [mem_deniedLoop_iff allArgs command v rest]
    by_cases h1 : Contains allArgs d = true <;> by_cases h2 : Contains command d = true <;>
      simp [h1, h2, or_assoc]

theorem mem_networkLoop_iff (command v : String) :
    ∀ (ns acc : List String),
      v ∈ networkLoop command ns acc ↔
        v ∈ acc ∨ ∃ n ∈ ns,
          (command = n ∨ HasSuffix command ("/" ++ n) = true) ∧
            v = "network command '" ++ n ++ "' not allowed"
  | [], acc => by simp [networkLoop]
  | n :: rest, acc => by
    simp only [networkLoop]
    rw [mem_networkLoop_iff command v rest]
    by_cases h : (command == n || HasSuffix command ("/" ++ n)) = true
    · have h' : command = n ∨ HasSuffix command ("/" ++ n) = true := by simpa using h
      simp [h, h', or_assoc]
    · have h' : ¬ (command = n ∨ HasSuffix command ("/" ++ n) = true) := by simpa using h
      simp [h, h']

theorem mem_dangerousLoop_iff (command allArgs v : String) :
    ∀ (ps acc : List String),
      v ∈ dangerousLoop command allArgs ps acc ↔
        v ∈ acc ∨ ∃ p ∈ ps,
          Contains (command ++ " " ++ allArgs) p = true ∧
            v = "dangerous command pattern: " ++ p
  | [], acc => by simp [dangerousLoop]
  | p :: rest, acc => by
    simp only [dangerousLoop]
    rw [mem_dangerousLoop_iff command allArgs v rest]
    by_cases h : Contains (command ++ " " ++ allArgs) p = true <;> simp [h, or_assoc]

/-- Membership in the list returned by `checkPolicy`, check by check. -/
theorem mem_checkPolicy_iff (r : Runner) (command : String) (args : List String) (v : String) :
    v ∈ r.checkPolicy command args ↔
      (∃ d ∈ r.config.DeniedPaths,
          (Contains (Join args " ") d = true ∧ v = "access to denied path: " ++ d) ∨
          (Contains command d = true ∧ v = "command in denied path: " ++ d)) ∨
      (Contains (Join args " ") ".." = true ∧ v = "path traversal detected") ∨
      (r.config.AllowNetwork = false ∧ ∃ n ∈ networkCmds,
          (command = n ∨ HasSuffix command ("/" ++ n) = true) ∧
            v = "network command '" ++ n ++ "' not allowed") ∨
      (∃ p ∈ dangerousCmds,
          Contains (command ++ " " ++ Join args " ") p = true ∧
            v = "dangerous command pattern: " ++ p) := by
  unfold Runner.checkPolicy
  simp only [mem_dangerousLoop_iff]
  cases hnet : r.config.AllowNetwork <;>
    by_cases htrav : Contains (Join args " ") ".." = true <;>
    simp [htrav, mem_networkLoop_iff, mem_deniedLoop_iff, or_assoc]

/-- On the violation path `Execute` returns before building any command. -/
theorem Execute_of_violations (w : World) (r : Runner) (command : String) (args : List String)
    (started : List Cmd) (h : r.checkPolicy command args ≠ []) :
    r.Execute w command args started =
      ({ ExitCode := -1, Stdout := "", Stderr := "", Duration := w.SincePolicy,
         Killed := false,
         Error := "policy violation: " ++ Join (r.checkPolicy command args) "; ",
         Violations := r.checkPolicy command args }, started) := by
  have hlen : (r.checkPolicy command args).length > 0 := List.length_pos.mpr h
  simp [Runner.Execute, hlen, Result.zero]

end Sandbox

/-! ## The runner: policy violations (C1 to C5) -/

namespace Sandbox

open Strings

/-- C1: whenever `checkPolicy` returns a non-empty list `V`, `Execute` returns
exit code -1, the error text "policy violation: " followed by `V` joined with
"; ", `Violations = V`, `Killed = false` and empty output, hands no command to
the launcher (the log of started commands is unchanged), and apart from
`Duration` returns the same `Result` in every world, whatever its launcher
would have done. -/
theorem Execute_policy_violation_aborts (w : World) (r : Runner) (command : String)
    (args : List String) (started : List Cmd) (h : r.checkPolicy command args ≠ []) :
    (r.Execute w command args started).1.ExitCode = -1 ∧
    (r.Execute w command args started).1.Error =
      "policy violation: " ++ Join (r.checkPolicy command args) "; " ∧
    (r.Execute w command args started).1.Violations = r.checkPolicy command args ∧
    (r.Execute w command args started).1.Killed = false ∧
    (r.Execute w command args started).1.Stdout = "" ∧
    (r.Execute w command args started).1.Stderr = "" ∧
    (r.Execute w command args started).2 = started ∧
    ∀ w' : World,
      (r.Execute w' command args started).2 = started ∧
      { (r.Execute w' command args started).1 with Duration := 0 } =
        { (r.Execute w command args started).1 with Duration := 0 } := by
  refine ⟨?_, ?_, ?_, ?_, ?_, ?_, ?_, ?_⟩
  all_goals first
    | (intro w'
       rw [Execute_of_violations w' r command args started h,
         Execute_of_violations w r command args started h]
       exact ⟨rfl, rfl⟩)
    | (rw [Execute_of_violations w r command args started h])

/-- C1 at the default configuration, `cat /etc/passwd`, in a world whose
launcher would have reported a timeout. -/
theorem Execute_policy_violation_aborts_witness :
    (NewRunner DefaultConfig).checkPolicy "cat" ["/etc/passwd"] ≠ [] ∧
    ((NewRunner DefaultConfig).Execute timeoutWorld "cat" ["/etc/passwd"] []).1.ExitCode = -1 ∧
    ((NewRunner DefaultConfig).Execute timeoutWorld "cat" ["/etc/passwd"] []).1.Error =
      "policy violation: access to denied path: /etc" ∧
    ((NewRunner DefaultConfig).Execute timeoutWorld "cat" ["/etc/passwd"] []).1.Killed = false ∧
    ((NewRunner DefaultConfig).Execute timeoutWorld "cat" ["/etc/passwd"] []).2 = [] :=
  have h := Execute_policy_violation_aborts timeoutWorld (NewRunner DefaultConfig) "cat"
    ["/etc/passwd"] [] (by decide)
  ⟨by decide, h.1, h.2.1.trans (by decide), h.2.2.2.1, h.2.2.2.2.2.2.1⟩

/-- C2: for every denied entry `D` of the configuration and every argument
list whose single-space concatenation contains `D`, `Execute` returns exit
code -1 and a violation list containing "access to denied path: D". -/
theorem Execute_denied_path_in_args (w : World) (r : Runner) (command : String)
    (args : List String) (started : List Cmd) (D : String)
    (hD : D ∈ r.config.DeniedPaths) (hsub : D.data <:+: (Join args " ").data) :
    (r.Execute w command args started).1.ExitCode = -1 ∧
    ("access to denied path: " ++ D) ∈ (r.Execute w command args started).1.Violations := by
  have hmem : ("access to denied path: " ++ D) ∈ r.checkPolicy command args :=
    (mem_checkPolicy_iff r command args _).mpr
      (Or.inl ⟨D, hD, Or.inl ⟨(Contains_iff _ _).mpr hsub, rfl⟩⟩)
  have hne : r.checkPolicy command args ≠ [] := List.ne_nil_of_mem hmem
  rw [Execute_of_violations w r command args started hne]
  exact ⟨rfl, hmem⟩

/-- C2 at the default configuration, command `cat`, argument `/etc/passwd`,
denied entry `/etc`. -/
theorem Execute_denied_path_in_args_witness :
    "/etc" ∈ (NewRunner DefaultConfig).config.DeniedPaths ∧
    "/etc".data <:+: (Join ["/etc/passwd"] " ").data ∧
    ((NewRunner DefaultConfig).Execute quietWorld "cat" ["/etc/passwd"] []).1.ExitCode = -1 ∧
    "access to denied path: /etc" ∈
      ((NewRunner DefaultConfig).Execute quietWorld "cat" ["/etc/passwd"] []).1.Violations :=
  have h := Execute_denied_path_in_args quietWorld (NewRunner DefaultConfig) "cat"
    ["/etc/passwd"] [] "/etc" (by decide) (by decide)
  ⟨by decide, by decide, h.1, h.2⟩

/-- C3: whatever the configuration, if at least one argument contains "..",
`checkPolicy` returns a non-empty list containing "path traversal detected",
and `Execute` returns that non-empty violation list with exit code -1. -/
theorem checkPolicy_path_traversal (w : World) (r : Runner) (command : String)
    (args : List String) (started : List Cmd) (a : String)
    (ha : a ∈ args) (hdots : "..".data <:+: a.data) :
    "path traversal detected" ∈ r.checkPolicy command args ∧
    r.checkPolicy command args ≠ [] ∧
    "path traversal detected" ∈ (r.Execute w command args started).1.Violations ∧
    (r.Execute w command args started).1.Violations ≠ [] ∧
    (r.Execute w command args started).1.ExitCode = -1 := by
  have hjoin : "..".data <:+: (Join args " ").data :=
    List.IsInfix.trans hdots (infix_Join_of_mem " " args a ha)
  have hmem : "path traversal detected" ∈ r.checkPolicy command args :=
    (mem_checkPolicy_iff r command args _).mpr
      (Or.inr (Or.inl ⟨(Contains_iff _ _).mpr hjoin, rfl⟩))
  have hne : r.checkPolicy command args ≠ [] := List.ne_nil_of_mem hmem
  rw [Execute_of_violations w r command args started hne]
  exact ⟨hmem, hne, hmem, hne, rfl⟩

/-- C3 at the default configuration, command `cat`, argument
`../../etc/passwd`. -/
theorem checkPolicy_path_traversal_witness :
    "../../etc/passwd" ∈ ["../../etc/passwd"] ∧
    "..".data <:+: "../../etc/passwd".data ∧
    "path traversal detected" ∈
      (NewRunner DefaultConfig).checkPolicy "cat" ["../../etc/passwd"] ∧
    ((NewRunner DefaultConfig).Execute quietWorld "cat" ["../../etc/passwd"] []).1.Violations
      ≠ [] ∧
    ((NewRunner DefaultConfig).Execute quietWorld "cat" ["../../etc/passwd"] []).1.ExitCode
      = -1 :=
  have h := checkPolicy_path_traversal quietWorld (NewRunner DefaultConfig) "cat"
    ["../../etc/passwd"] [] "../../etc/passwd" (by decide) (by decide)
  ⟨by decide, by decide, h.1, h.2.2.2.1, h.2.2.2.2⟩

/-- C4: with `AllowNetwork = false`, for every name `n` among curl, wget, nc,
ncat, ssh, scp, rsync and every command that equals `n` or ends with "/"
followed by `n`, `Execute` returns a violation list containing
"network command 'n' not allowed" and exit code -1. -/
theorem Execute_network_command_blocked (w : World) (r : Runner) (command : String)
    (args : List String) (started : List Cmd) (n : String)
    (hnet : r.config.AllowNetwork = false)
    (hn : n ∈ ["curl", "wget", "nc", "ncat", "ssh", "scp", "rsync"])
    (hcmd : command = n ∨ ∃ dir : String, command = dir ++ "/" ++ n) :
    ("network command '" ++ n ++ "' not allowed") ∈
      (r.Execute w command args started).1.Violations ∧
    (r.Execute w command args started).1.ExitCode = -1 := by
  have hsuf : command = n ∨ HasSuffix command ("/" ++ n) = true := by
    rcases hcmd with h | ⟨dir, h⟩
    · exact Or.inl h
    · refine Or.inr ((HasSuffix_iff _ _).mpr ⟨dir.data, ?_⟩)
      rw [h]
      simp [String.data_append]
  have hmem : ("network command '" ++ n ++ "' not allowed") ∈ r.checkPolicy command args :=
    (mem_checkPolicy_iff r command args _).mpr
      (Or.inr (Or.inr (Or.inl ⟨hnet, n, hn, hsuf, rfl⟩)))
  have hne : r.checkPolicy command args ≠ [] := List.ne_nil_of_mem hmem
  rw [Execute_of_violations w r command args started hne]
  exact ⟨hmem, rfl⟩

/-- C4 at the default configuration: command `curl` with argument
`https://example.com`, and the path-suffixed command `/usr/bin/ssh`. -/
theorem Execute_network_command_blocked_witness :
    (NewRunner DefaultConfig).config.AllowNetwork = false ∧
    "network command 'curl' not allowed" ∈
      ((NewRunner DefaultConfig).Execute quietWorld "curl" ["https://example.com"]
        []).1.Violations ∧
    ((NewRunner DefaultConfig).Execute quietWorld "curl" ["https://example.com"]
      []).1.ExitCode = -1 ∧
    "network command 'ssh' not allowed" ∈
      ((NewRunner DefaultConfig).Execute quietWorld "/usr/bin/ssh" ["host"] []).1.Violations :=
  have h := Execute_network_command_blocked quietWorld (NewRunner DefaultConfig) "curl"
    ["https://example.com"] [] "curl" (by decide) (by decide) (Or.inl rfl)
  have h' := Execute_network_command_blocked quietWorld (NewRunner DefaultConfig)
    "/usr/bin/ssh" ["host"] [] "ssh" (by decide) (by decide) (Or.inr ⟨"/usr/bin", by decide⟩)
  ⟨by decide, h.1, h.2, h'.1⟩

/-- C5: for every pattern `p` among "rm -rf /", "mkfs", "dd if=/dev/zero" and
the fork-bomb idiom, if command + " " + (arguments joined with single spaces)
contains `p`, then `Execute` returns a violation list containing
"dangerous command pattern: p" and exit code -1. -/
theorem Execute_dangerous_pattern (w : World) (r : Runner) (command : String)
    (args : List String) (started : List Cmd) (p : String)
    (hp : p ∈ ["rm -rf /", "mkfs", "dd if=/dev/zero", ":()\x7b :|:& \x7d;:"])
    (hsub : p.data <:+: (command ++ " " ++ Join args " ").data) :
    ("dangerous command pattern: " ++ p) ∈ (r.Execute w command args started).1.Violations ∧
    (r.Execute w command args started).1.ExitCode = -1 := by
  have hmem : ("dangerous command pattern: " ++ p) ∈ r.checkPolicy command args :=
    (mem_checkPolicy_iff r command args _).mpr
      (Or.inr (Or.inr (Or.inr ⟨p, hp, (Contains_iff _ _).mpr hsub, rfl⟩)))
  have hne : r.checkPolicy command args ≠ [] := List.ne_nil_of_mem hmem
  rw [Execute_of_violations w r command args started hne]
  exact ⟨hmem, rfl⟩

/-- C5 at the default configuration, command `rm`, arguments `-rf` and `/`. -/
theorem Execute_dangerous_pattern_witness :
    "rm -rf /".data <:+: ("rm" ++ " " ++ Join ["-rf", "/"] " ").data ∧
    "dangerous command pattern: rm -rf /" ∈
      ((NewRunner DefaultConfig).Execute quietWorld "rm" ["-rf", "/"] []).1.Violations ∧
    ((NewRunner DefaultConfig).Execute quietWorld "rm" ["-rf", "/"] []).1.ExitCode = -1 :=
  have h := Execute_dangerous_pattern quietWorld (NewRunner DefaultConfig) "rm"
    ["-rf", "/"] [] "rm -rf /" (by decide) (by decide)
  ⟨by decide, h.1, h.2⟩

end Sandbox

/-! ## Profile selection (C6 to C8) -/

namespace Policy

open Sandbox

theorem hasPattern_iff (name : String) (p : Profile) :
    hasPattern name p = true ↔ name ∈ p.ToolPatterns := by
  unfold hasPattern
  rw [List.any_eq_true]
  constructor
  · rintro ⟨x, hx, hxe⟩
    have : x = name := by simpa using hxe
    exact this ▸ hx
  · intro h
    exact ⟨name, h, by simp⟩

theorem firstIndex_eq_none_iff (test : Profile → Bool) :
    ∀ (l : List Profile) (k : Nat),
      firstIndex test l k = none ↔ ∀ p ∈ l, test p = false
  | [], k => by simp [firstIndex]
  | p :: rest, k => by
    simp only [firstIndex]
    by_cases h : test p = true
    · simp [h]
    · have hf : test p = false := by simpa using h
      simp [hf, firstIndex_eq_none_iff test rest (k + 1)]

/-- The index returned by `firstIndex` is the least position of the list whose
profile passes the test. -/
theorem firstIndex_eq_some (test : Profile → Bool) :
    ∀ (l : List Profile) (k i : Nat), firstIndex test l k = some i →
      ∃ j p, i = k + j ∧ l[j]? = some p ∧ test p = true ∧
        ∀ m q, m < j → l[m]? = some q → test q = false
  | [], k, i, h => by simp [firstIndex] at h
  | p :: rest, k, i, h => by
    simp only [firstIndex] at h
    by_cases hp : test p = true
    · rw [if_pos hp] at h
      refine ⟨0, p, ?_, by simp, hp, ?_⟩
      · exact (Option.some.inj h).symm
      · intro m q hm
        exact absurd hm (Nat.not_lt_zero m)
    · rw [if_neg hp] at h
      obtain ⟨j, q, hi, hq, hqt, hmin⟩ := firstIndex_eq_some test rest (k + 1) i h
      refine ⟨j + 1, q, by omega, by simpa using hq, hqt, ?_⟩
      intro m q' hm hq'
      cases m with
      | zero =>
        have : p = q' := by simpa using hq'
        subst this
        simpa using hp
      | succ m' =>
        exact hmin m' q' (by omega) (by simpa using hq')

theorem firstIndex_isSome_of_mem (test : Profile → Bool) (l : List Profile) (k : Nat)
    (h : ∃ p ∈ l, test p = true) : ∃ i, firstIndex test l k = some i := by
  cases hf : firstIndex test l k with
  | some i => exact ⟨i, rfl⟩
  | none =>
    obtain ⟨p, hp, hpt⟩ := h
    have := (firstIndex_eq_none_iff test l k).mp hf p hp
    rw [this] at hpt
    exact absurd hpt (by simp)

/-- C6: if some profile has a pattern equal to the tool name, `FindProfile`
returns the first profile in list order that has such a pattern (no earlier
profile has one), whatever wildcard profiles precede it. -/
theorem FindProfile_exact_match_first (ps : ProfileSet) (toolName : String)
    (h : ∃ p ∈ ps.Profiles, toolName ∈ p.ToolPatterns) :
    ∃ i p, ps.FindProfile toolName = some i ∧ ps.Profiles[i]? = some p ∧
      toolName ∈ p.ToolPatterns ∧
      ∀ j q, j < i → ps.Profiles[j]? = some q → toolName ∉ q.ToolPatterns := by
  obtain ⟨p₀, hp₀, hpat⟩ := h
  obtain ⟨i, hi⟩ := firstIndex_isSome_of_mem (hasPattern toolName) ps.Profiles 0
    ⟨p₀, hp₀, (hasPattern_iff _ _).mpr hpat⟩
  obtain ⟨j, p, hij, hp, hpt, hmin⟩ := firstIndex_eq_some _ _ _ _ hi
  have hij' : i = j := by omega
  subst hij'
  refine ⟨i, p, ?_, hp, (hasPattern_iff _ _).mp hpt, ?_⟩
  · simp [ProfileSet.FindProfile, hi]
  · intro m q hm hq hmem
    have := hmin m q hm hq
    rw [(hasPattern_iff _ _).mpr hmem] at this
    exact absurd this (by simp)

/-- C6 on the sample set of the tests: the wildcard profile "restrictive" is
first, yet `web_search` selects "web-tools". -/
theorem FindProfile_exact_match_first_witness :
    (∃ p ∈ sampleProfiles.Profiles, "web_search" ∈ p.ToolPatterns) ∧
    (∃ i p, sampleProfiles.FindProfile "web_search" = some i ∧
      sampleProfiles.Profiles[i]? = some p ∧ "web_search" ∈ p.ToolPatterns ∧
      ∀ j q, j < i → sampleProfiles.Profiles[j]? = some q →
        "web_search" ∉ q.ToolPatterns) ∧
    (sampleProfiles.Profiles[0]?).map Profile.ToolPatterns = some ["*"] ∧
    sampleProfiles.FindProfile "web_search" = some 1 ∧
    (sampleProfiles.Profiles[1]?).map Profile.Name = some "web-tools" :=
  ⟨by decide,
   FindProfile_exact_match_first sampleProfiles "web_search" (by decide),
   by decide, by decide, by decide⟩

/-- C7: if no pattern of any profile equals the tool name and some profile
contains the pattern "*", `FindProfile` returns the first profile in list
order containing "*", and the result does not depend on the set's `Default`. -/
theorem FindProfile_wildcard_before_default (ps : ProfileSet) (toolName : String)
    (hexact : ∀ p ∈ ps.Profiles, toolName ∉ p.ToolPatterns)
    (hwild : ∃ p ∈ ps.Profiles, "*" ∈ p.ToolPatterns) :
    (∃ i p, ps.FindProfile toolName = some i ∧ ps.Profiles[i]? = some p ∧
      "*" ∈ p.ToolPatterns ∧
      ∀ j q, j < i → ps.Profiles[j]? = some q → "*" ∉ q.ToolPatterns) ∧
    ∀ d : String,
      ProfileSet.FindProfile { Profiles := ps.Profiles, Default := d } toolName =
        ps.FindProfile toolName := by
  have hnone : firstIndex (hasPattern toolName) ps.Profiles 0 = none := by
    rw [firstIndex_eq_none_iff]
    intro p hp
    cases hb : hasPattern toolName p with
    | false => rfl
    | true => exact absurd ((hasPattern_iff _ _).mp hb) (hexact p hp)
  obtain ⟨p₀, hp₀, hpat⟩ := hwild
  obtain ⟨i, hi⟩ := firstIndex_isSome_of_mem (hasPattern "*") ps.Profiles 0
    ⟨p₀, hp₀, (hasPattern_iff _ _).mpr hpat⟩
  obtain ⟨j, p, hij, hp, hpt, hmin⟩ := firstIndex_eq_some _ _ _ _ hi
  have hij' : i = j := by omega
  subst hij'
  refine ⟨⟨i, p, ?_, hp, (hasPattern_iff _ _).mp hpt, ?_⟩, ?_⟩
  · simp [ProfileSet.FindProfile, hnone, hi]
  · intro m q hm hq hmem
    have := hmin m q hm hq
    rw [(hasPattern_iff _ _).mpr hmem] at this
    exact absurd this (by simp)
  · intro d
    simp [ProfileSet.FindProfile, hnone, hi]

/-- C7 on the sample set of the tests: `unknown_tool` selects "restrictive". -/
theorem FindProfile_wildcard_before_default_witness :
    (∀ p ∈ sampleProfiles.Profiles, "unknown_tool" ∉ p.ToolPatterns) ∧
    (∃ p ∈ sampleProfiles.Profiles, "*" ∈ p.ToolPatterns) ∧
    ((∃ i p, sampleProfiles.FindProfile "unknown_tool" = some i ∧
      sampleProfiles.Profiles[i]? = some p ∧ "*" ∈ p.ToolPatterns ∧
      ∀ j q, j < i → sampleProfiles.Profiles[j]? = some q → "*" ∉ q.ToolPatterns) ∧
    ∀ d : String,
      ProfileSet.FindProfile { Profiles := sampleProfiles.Profiles, Default := d }
        "unknown_tool" = sampleProfiles.FindProfile "unknown_tool") ∧
    sampleProfiles.FindProfile "unknown_tool" = some 0 ∧
    (sampleProfiles.Profiles[0]?).map Profile.Name = some "restrictive" :=
  ⟨by decide, by decide,
   FindProfile_wildcard_before_default sampleProfiles "unknown_tool" (by decide) (by decide),
   by decide, by decide⟩

end Policy

namespace Policy

open Sandbox

/-- C8: a profile returned by `FindProfile` is always an element of the set's
`Profiles` list; and when no pattern of any profile equals the tool name and
no profile contains "*", `FindProfile` returns the first profile in list order
whose `Name` equals the set's non-empty `Default` if there is one, and none
otherwise. -/
theorem FindProfile_default_pass (ps : ProfileSet) (toolName : String) :
    (∀ i, ps.FindProfile toolName = some i →
      ∃ p, ps.Profiles[i]? = some p ∧ p ∈ ps.Profiles) ∧
    ((∀ p ∈ ps.Profiles, toolName ∉ p.ToolPatterns) →
     (∀ p ∈ ps.Profiles, "*" ∉ p.ToolPatterns) →
      ((ps.Default ≠ "" ∧ (∃ p ∈ ps.Profiles, p.Name = ps.Default)) →
        ∃ i p, ps.FindProfile toolName = some i ∧ ps.Profiles[i]? = some p ∧
          p.Name = ps.Default ∧
          ∀ j q, j < i → ps.Profiles[j]? = some q → q.Name ≠ ps.Default) ∧
      (¬ (ps.Default ≠ "" ∧ (∃ p ∈ ps.Profiles, p.Name = ps.Default)) →
        ps.FindProfile toolName = none)) := by
  constructor
  · intro i hi
    have key : ∀ test : Profile → Bool, firstIndex test ps.Profiles 0 = some i →
        ∃ p, ps.Profiles[i]? = some p ∧ p ∈ ps.Profiles := by
      intro test ht
      obtain ⟨j, p, hij, hp, -, -⟩ := firstIndex_eq_some test ps.Profiles 0 i ht
      have hij' : i = j := by omega
      subst hij'
      exact ⟨p, hp, List.mem_iff_getElem?.mpr ⟨i, hp⟩⟩
    unfold ProfileSet.FindProfile at hi
    cases h1 : firstIndex (hasPattern toolName) ps.Profiles 0 with
    | some a =>
      rw [h1] at hi
      exact key _ (h1.trans hi)
    | none =>
      rw [h1] at hi
      cases h2 : firstIndex (hasPattern "*") ps.Profiles 0 with
      | some b =>
        rw [h2] at hi
        exact key _ (h2.trans hi)
      | none =>
        rw [h2] at hi
        by_cases hd : ps.Default ≠ ""
        · rw [if_pos hd] at hi
          exact key _ hi
        · simp [hd] at hi
  · intro hexact hwild
    have hnone1 : firstIndex (hasPattern toolName) ps.Profiles 0 = none := by
      rw [firstIndex_eq_none_iff]
      intro p hp
      cases hb : hasPattern toolName p with
      | false => rfl
      | true => exact absurd ((hasPattern_iff _ _).mp hb) (hexact p hp)
    have hnone2 : firstIndex (hasPattern "*") ps.Profiles 0 = none := by
      rw [firstIndex_eq_none_iff]
      intro p hp
      cases hb : hasPattern "*" p with
      | false => rfl
      | true => exact absurd ((hasPattern_iff _ _).mp hb) (hwild p hp)
    constructor
    · rintro ⟨hd, p₀, hp₀, hname⟩
      obtain ⟨i, hi⟩ := firstIndex_isSome_of_mem (fun p => p.Name == ps.Default)
        ps.Profiles 0 ⟨p₀, hp₀, by simpa using hname⟩
      obtain ⟨j, p, hij, hp, hpt, hmin⟩ := firstIndex_eq_some _ _ _ _ hi
      have hij' : i = j := by omega
      subst hij'
      refine ⟨i, p, ?_, hp, by simpa using hpt, ?_⟩
      · simp [ProfileSet.FindProfile, hnone1, hnone2, hd, hi]
      · intro m q hm hq
        have := hmin m q hm hq
        simpa using this
    · intro hno
      by_cases hd : ps.Default ≠ ""
      · have hall : ∀ p ∈ ps.Profiles, (p.Name == ps.Default) = false := by
          intro p hp
          have : p.Name ≠ ps.Default := fun he => hno ⟨hd, p, hp, he⟩
          simpa using this
        have hnone3 := (firstIndex_eq_none_iff (fun p => p.Name == ps.Default)
          ps.Profiles 0).mpr hall
        simp [ProfileSet.FindProfile, hnone1, hnone2, hd, hnone3]
      · simp [ProfileSet.FindProfile, hnone1, hnone2, hd]

/-- C8 on a set without wildcard whose default is "file-tools": an unknown
tool selects the profile at index 1, named "file-tools". -/
theorem FindProfile_default_pass_witness :
    (∀ p ∈ namedDefaultProfiles.Profiles, "unknown_tool" ∉ p.ToolPatterns) ∧
    (∀ p ∈ namedDefaultProfiles.Profiles, "*" ∉ p.ToolPatterns) ∧
    (namedDefaultProfiles.Default ≠ "" ∧
      (∃ p ∈ namedDefaultProfiles.Profiles, p.Name = namedDefaultProfiles.Default)) ∧
    (∃ i p, namedDefaultProfiles.FindProfile "unknown_tool" = some i ∧
      namedDefaultProfiles.Profiles[i]? = some p ∧
      p.Name = namedDefaultProfiles.Default ∧
      ∀ j q, j < i → namedDefaultProfiles.Profiles[j]? = some q →
        q.Name ≠ namedDefaultProfiles.Default) ∧
    namedDefaultProfiles.FindProfile "unknown_tool" = some 1 ∧
    ProfileSet.FindProfile { Profiles := namedDefaultProfiles.Profiles, Default := "" }
      "unknown_tool" = none :=
  ⟨by decide, by decide, by decide,
   ((FindProfile_default_pass namedDefaultProfiles "unknown_tool").2
      (by decide) (by decide)).1 (by decide),
   by decide,
   ((FindProfile_default_pass
      { Profiles := namedDefaultProfiles.Profiles, Default := "" } "unknown_tool").2
      (by decide) (by decide)).2 (by decide)⟩

end Policy

/-! ## Merging a partial configuration onto the default (C9, C10) -/

namespace Policy

open Sandbox

theorem ToSandboxConfig_AllowedPaths (pc : ProfileConfig) :
    pc.ToSandboxConfig.AllowedPaths =
      if pc.AllowedPaths.length > 0 then pc.AllowedPaths else DefaultConfig.AllowedPaths := by
  unfold ProfileConfig.ToSandboxConfig
  split_ifs <;> rfl

theorem ToSandboxConfig_DeniedPaths (pc : ProfileConfig) :
    pc.ToSandboxConfig.DeniedPaths =
      if pc.DeniedPaths.length > 0 then pc.DeniedPaths else DefaultConfig.DeniedPaths := by
  unfold ProfileConfig.ToSandboxConfig
  split_ifs <;> rfl

theorem ToSandboxConfig_AllowedHosts (pc : ProfileConfig) :
    pc.ToSandboxConfig.AllowedHosts =
      if pc.AllowedHosts.length > 0 then pc.AllowedHosts else DefaultConfig.AllowedHosts := by
  unfold ProfileConfig.ToSandboxConfig
  split_ifs <;> rfl

theorem ToSandboxConfig_MaxMemoryMB (pc : ProfileConfig) :
    pc.ToSandboxConfig.MaxMemoryMB =
      if pc.MaxMemoryMB > 0 then pc.MaxMemoryMB else DefaultConfig.MaxMemoryMB := by
  unfold ProfileConfig.ToSandboxConfig
  split_ifs <;> rfl

theorem ToSandboxConfig_AllowNetwork (pc : ProfileConfig) :
    pc.ToSandboxConfig.AllowNetwork = pc.AllowNetwork := by
  unfold ProfileConfig.ToSandboxConfig
  split_ifs <;> rfl

theorem length_pos_iff_ne_nil (l : List String) : l.length > 0 ↔ l ≠ [] :=
  List.length_pos

/-- C9 as stated fails: a partial configuration with `MaxMemoryMB = -1` has a
non-zero memory limit, yet the merged configuration keeps the default 256. -/
theorem ToSandboxConfig_negative_memory_counterexample :
    negativeMemoryConfig.MaxMemoryMB ≠ 0 ∧
    negativeMemoryConfig.ToSandboxConfig.MaxMemoryMB = 256 ∧
    negativeMemoryConfig.ToSandboxConfig.MaxMemoryMB ≠ negativeMemoryConfig.MaxMemoryMB ∧
    ¬ (∀ pc : ProfileConfig, pc.MaxMemoryMB ≠ 0 →
        pc.ToSandboxConfig.MaxMemoryMB = pc.MaxMemoryMB) := by
  refine ⟨by decide, by decide, by decide, ?_⟩
  intro hall
  exact absurd (hall negativeMemoryConfig (by decide)) (by decide)

/-- C9 (amended): each of `AllowedPaths`, `DeniedPaths` and `AllowedHosts` of
the merged configuration is the partial configuration's list when that list is
non-empty and the `DefaultConfig` value otherwise; `MaxMemoryMB` is the
partial configuration's value when that value is positive and the default 256
when it is zero or negative. -/
theorem ToSandboxConfig_sparse_override (pc : ProfileConfig) :
    pc.ToSandboxConfig.AllowedPaths =
      (if pc.AllowedPaths ≠ [] then pc.AllowedPaths else DefaultConfig.AllowedPaths) ∧
    pc.ToSandboxConfig.DeniedPaths =
      (if pc.DeniedPaths ≠ [] then pc.DeniedPaths else DefaultConfig.DeniedPaths) ∧
    pc.ToSandboxConfig.AllowedHosts =
      (if pc.AllowedHosts ≠ [] then pc.AllowedHosts else DefaultConfig.AllowedHosts) ∧
    pc.ToSandboxConfig.MaxMemoryMB = (if 0 < pc.MaxMemoryMB then pc.MaxMemoryMB else 256) := by
  refine ⟨?_, ?_, ?_, ?_⟩
  · rw [ToSandboxConfig_AllowedPaths]
    simp only [length_pos_iff_ne_nil]
  · rw [ToSandboxConfig_DeniedPaths]
    simp only [length_pos_iff_ne_nil]
  · rw [ToSandboxConfig_AllowedHosts]
    simp only [length_pos_iff_ne_nil]
  · rw [ToSandboxConfig_MaxMemoryMB]
    rfl

/-- C9 on the sample profiles of the tests: "web-tools" yields 256 MB and two
allowed hosts, "file-tools" yields two allowed paths and keeps the default
memory limit and the default (empty) host list. -/
theorem ToSandboxConfig_sparse_override_witness :
    webToolsConfig.ToSandboxConfig.MaxMemoryMB = 256 ∧
    webToolsConfig.ToSandboxConfig.AllowedHosts = ["api.google.com", "api.bing.com"] ∧
    webToolsConfig.ToSandboxConfig.AllowedHosts.length = 2 ∧
    fileToolsConfig.ToSandboxConfig.AllowedPaths.length = 2 ∧
    fileToolsConfig.ToSandboxConfig.MaxMemoryMB = 256 ∧
    fileToolsConfig.ToSandboxConfig.AllowedHosts = [] :=
  have hw := ToSandboxConfig_sparse_override webToolsConfig
  have hf := ToSandboxConfig_sparse_override fileToolsConfig
  ⟨hw.2.2.2.trans (by decide), hw.2.2.1.trans (by decide),
   (congrArg List.length hw.2.2.1).trans (by decide),
   (congrArg List.length hf.1).trans (by decide),
   hf.2.2.2.trans (by decide), hf.2.2.1.trans (by decide)⟩

/-- C10: the `AllowNetwork` flag of the merged configuration is the partial
configuration's flag verbatim, so two partial configurations with the same
flag give the same flag whatever their other fields. -/
theorem ToSandboxConfig_AllowNetwork_verbatim (pc : ProfileConfig) :
    pc.ToSandboxConfig.AllowNetwork = pc.AllowNetwork ∧
    ∀ pc' : ProfileConfig, pc'.AllowNetwork = pc.AllowNetwork →
      pc'.ToSandboxConfig.AllowNetwork = pc.ToSandboxConfig.AllowNetwork := by
  refine ⟨ToSandboxConfig_AllowNetwork pc, ?_⟩
  intro pc' h
  rw [ToSandboxConfig_AllowNetwork, ToSandboxConfig_AllowNetwork, h]

/-- C10 on the sample profiles of the tests: "web-tools" allows the network,
"file-tools" does not. -/
theorem ToSandboxConfig_AllowNetwork_verbatim_witness :
    webToolsConfig.AllowNetwork = true ∧
    webToolsConfig.ToSandboxConfig.AllowNetwork = true ∧
    fileToolsConfig.AllowNetwork = false ∧
    fileToolsConfig.ToSandboxConfig.AllowNetwork = false :=
  ⟨by decide,
   (ToSandboxConfig_AllowNetwork_verbatim webToolsConfig).1.trans (by decide),
   by decide,
   (ToSandboxConfig_AllowNetwork_verbatim fileToolsConfig).1.trans (by decide)⟩

end Policy

/-! ## The runner after a passed policy check (C16, C17) -/

namespace Sandbox

open Strings

/-- With an empty violation list and a passed deadline, `Execute` reports the
timeout whatever `cmd.Run()` returned. -/
theorem Execute_of_deadline (w : World) (r : Runner) (command : String) (args : List String)
    (started : List Cmd) (hpol : r.checkPolicy command args = [])
    (hctx : (w.Run (r.builtCmd command args)).ctxErr = CtxErr.DeadlineExceeded) :
    r.Execute w command args started =
      ({ ExitCode := -1
         Stdout := (w.Run (r.builtCmd command args)).Stdout
         Stderr := (w.Run (r.builtCmd command args)).Stderr
         Duration := (w.Run (r.builtCmd command args)).Elapsed
         Killed := true
         Error := "timeout exceeded"
         Violations := [] }, started ++ [r.builtCmd command args]) := by
  unfold Runner.builtCmd at hctx ⊢
  simp only [Runner.Execute, hpol, Result.zero, List.length_nil, gt_iff_lt, lt_self_iff_false,
    if_false]
  rw [if_pos hctx]

/-- With an empty violation list and the deadline not passed, `Execute`
classifies the run by the error of `cmd.Run()`. -/
theorem Execute_of_completed (w : World) (r : Runner) (command : String) (args : List String)
    (started : List Cmd) (hpol : r.checkPolicy command args = [])
    (hctx : (w.Run (r.builtCmd command args)).ctxErr ≠ CtxErr.DeadlineExceeded) :
    r.Execute w command args started =
      ({ ExitCode :=
           match (w.Run (r.builtCmd command args)).err with
           | RunErr.none => 0
           | RunErr.ExitError code => code
           | RunErr.other _ => -1
         Stdout := (w.Run (r.builtCmd command args)).Stdout
         Stderr := (w.Run (r.builtCmd command args)).Stderr
         Duration := (w.Run (r.builtCmd command args)).Elapsed
         Killed := false
         Error :=
           match (w.Run (r.builtCmd command args)).err with
           | RunErr.none => ""
           | RunErr.ExitError _ => ""
           | RunErr.other text => text
         Violations := [] }, started ++ [r.builtCmd command args]) := by
  unfold Runner.builtCmd at hctx ⊢
  simp only [Runner.Execute, hpol, Result.zero, List.length_nil, gt_iff_lt, lt_self_iff_false,
    if_false]
  rw [if_neg hctx]
  split <;> rename_i herr <;> simp only [herr]

/-- C16: when the policy check passes and the deadline has been exceeded once
the run returns, `Execute` returns `Killed = true`, `Error = "timeout
exceeded"`, `ExitCode = -1` and the captured output, whatever error or exit
status the run itself reported. -/
theorem Execute_timeout_priority (w : World) (r : Runner) (command : String)
    (args : List String) (started : List Cmd)
    (hpol : r.checkPolicy command args = [])
    (hctx : (w.Run (r.builtCmd command args)).ctxErr = CtxErr.DeadlineExceeded) :
    (r.Execute w command args started).1.Killed = true ∧
    (r.Execute w command args started).1.Error = "timeout exceeded" ∧
    (r.Execute w command args started).1.ExitCode = -1 ∧
    (r.Execute w command args started).1.Stdout = (w.Run (r.builtCmd command args)).Stdout ∧
    (r.Execute w command args started).1.Stderr = (w.Run (r.builtCmd command args)).Stderr ∧
    (r.Execute w command args started).1.Violations = [] := by
  rw [Execute_of_deadline w r command args started hpol hctx]
  exact ⟨rfl, rfl, rfl, rfl, rfl, rfl⟩

/-- C16 on the configuration of `TestTimeout` (timeout 100 ms), command
`sleep 5`, in a world where the run comes back killed after the deadline. -/
theorem Execute_timeout_priority_witness :
    (NewRunner timeoutTestConfig).checkPolicy "sleep" ["5"] = [] ∧
    ((NewRunner timeoutTestConfig).builtCmd "sleep" ["5"]).Timeout = 100000000 ∧
    (timeoutWorld.Run ((NewRunner timeoutTestConfig).builtCmd "sleep" ["5"])).err =
      RunErr.other "signal: killed" ∧
    ((NewRunner timeoutTestConfig).Execute timeoutWorld "sleep" ["5"] []).1.Killed = true ∧
    ((NewRunner timeoutTestConfig).Execute timeoutWorld "sleep" ["5"] []).1.Error =
      "timeout exceeded" ∧
    ((NewRunner timeoutTestConfig).Execute timeoutWorld "sleep" ["5"] []).1.ExitCode = -1 ∧
    ((NewRunner timeoutTestConfig).Execute timeoutWorld "sleep" ["5"] []).1.Stdout =
      "partial" :=
  have h := Execute_timeout_priority timeoutWorld (NewRunner timeoutTestConfig) "sleep" ["5"] []
    (by decide) (by decide)
  ⟨by decide, by decide, by decide, h.1, h.2.1, h.2.2.1, h.2.2.2.1.trans (by decide)⟩

/-- C17: when the policy check passes, the deadline was not exceeded and the
process ended with exit status `s` (`s = 0` when the run reported no error),
`Execute` returns `ExitCode = s`, an empty `Error`, `Killed = false`, no
violations and the captured output. -/
theorem Execute_natural_exit (w : World) (r : Runner) (command : String)
    (args : List String) (started : List Cmd) (s : Int)
    (hpol : r.checkPolicy command args = [])
    (hctx : (w.Run (r.builtCmd command args)).ctxErr ≠ CtxErr.DeadlineExceeded)
    (hexit : ((w.Run (r.builtCmd command args)).err = RunErr.none ∧ s = 0) ∨
      (w.Run (r.builtCmd command args)).err = RunErr.ExitError s) :
    (r.Execute w command args started).1.ExitCode = s ∧
    (r.Execute w command args started).1.Error = "" ∧
    (r.Execute w command args started).1.Killed = false ∧
    (r.Execute w command args started).1.Violations = [] ∧
    (r.Execute w command args started).1.Stdout = (w.Run (r.builtCmd command args)).Stdout ∧
    (r.Execute w command args started).1.Stderr = (w.Run (r.builtCmd command args)).Stderr := by
  rw [Execute_of_completed w r command args started hpol hctx]
  rcases hexit with ⟨herr, hs⟩ | herr
  · simp [herr, hs]
  · simp [herr]

/-- C17 on the configuration of `TestValidCommand`, command `echo hello`, in
a world where the process prints its line and exits with status 0; and with a
process that exits with status 3. -/
theorem Execute_natural_exit_witness :
    (NewRunner validCommandConfig).checkPolicy "echo" ["hello"] = [] ∧
    ((NewRunner validCommandConfig).Execute echoWorld "echo" ["hello"] []).1.ExitCode = 0 ∧
    ((NewRunner validCommandConfig).Execute echoWorld "echo" ["hello"] []).1.Stdout =
      "hello\n" ∧
    ((NewRunner validCommandConfig).Execute echoWorld "echo" ["hello"] []).1.Violations = [] ∧
    ((NewRunner validCommandConfig).Execute exitThreeWorld "false" [] []).1.ExitCode = 3 ∧
    ((NewRunner validCommandConfig).Execute exitThreeWorld "false" [] []).1.Error = "" :=
  have h := Execute_natural_exit echoWorld (NewRunner validCommandConfig) "echo" ["hello"] [] 0
    (by decide) (by decide) (Or.inl ⟨by decide, rfl⟩)
  have h' := Execute_natural_exit exitThreeWorld (NewRunner validCommandConfig) "false" [] [] 3
    (by decide) (by decide) (Or.inr (by decide))
  ⟨by decide, h.1, h.2.2.2.2.1.trans (by decide), h.2.2.2.1, h'.1, h'.2.1⟩

end Sandbox

/-! ## The default timeout (C11) -/

namespace Policy

open Sandbox

theorem ToSandboxConfig_Timeout (pc : ProfileConfig) :
    pc.ToSandboxConfig.Timeout =
      if pc.TimeoutSec > 0 then wrapInt64 (pc.TimeoutSec * Second) else DefaultConfig.Timeout := by
  unfold ProfileConfig.ToSandboxConfig
  split_ifs <;> rfl

/-- C11: a partial configuration with `TimeoutSec = 0`, whatever its other
fields, is merged into a configuration whose `Timeout` is the `DefaultConfig`
timeout, exactly 30 seconds (30,000,000,000 nanoseconds). -/
theorem ToSandboxConfig_timeout_omitted (pc : ProfileConfig) (h : pc.TimeoutSec = 0) :
    pc.ToSandboxConfig.Timeout = DefaultConfig.Timeout ∧
    pc.ToSandboxConfig.Timeout = 30 * Second ∧
    pc.ToSandboxConfig.Timeout = 30000000000 := by
  have ht : pc.ToSandboxConfig.Timeout = DefaultConfig.Timeout := by
    rw [ToSandboxConfig_Timeout, h]
    rfl
  exact ⟨ht, ht, ht.trans (by decide)⟩

/-- C11 on a partial configuration that sets other fields but no timeout. -/
theorem ToSandboxConfig_timeout_omitted_witness :
    negativeMemoryConfig.TimeoutSec = 0 ∧
    negativeMemoryConfig.ToSandboxConfig.Timeout = 30000000000 ∧
    ProfileConfig.ToSandboxConfig
      { webToolsConfig with TimeoutSec := 0 } =
      { webToolsConfig.ToSandboxConfig with Timeout := 30000000000 } :=
  ⟨by decide,
   (ToSandboxConfig_timeout_omitted negativeMemoryConfig (by decide)).2.2,
   by decide⟩

end Policy

/-! ## Advisory validation of paths and hosts (C12 to C14) -/

namespace Sandbox

open Strings

theorem firstDeniedPrefix_eq_none_iff (path : String) :
    ∀ ds : List String,
      firstDeniedPrefix path ds = none ↔ ∀ d ∈ ds, ¬ d.data <+: path.data
  | [] => by simp [firstDeniedPrefix]
  | d :: rest => by
    simp only [firstDeniedPrefix]
    by_cases h : HasPrefix path d = true
    · have hp := (HasPrefix_iff path d).mp h
      simp [h, hp]
    · have hp : ¬ d.data <+: path.data := fun hp => h ((HasPrefix_iff path d).mpr hp)
      simp [h, hp, firstDeniedPrefix_eq_none_iff path rest]

/-- The entry found by `firstDeniedPrefix` sits at the least position of the
list whose entry is a prefix of the path. -/
theorem firstDeniedPrefix_of_first (path : String) :
    ∀ (ds : List String) (i : Nat) (d : String), ds[i]? = some d → d.data <+: path.data →
      (∀ j e, j < i → ds[j]? = some e → ¬ e.data <+: path.data) →
      firstDeniedPrefix path ds = some d
  | [], i, d, hd, _, _ => by simp at hd
  | x :: rest, 0, d, hd, hp, _ => by
    have hx : x = d := by simpa using hd
    subst hx
    simp [firstDeniedPrefix, (HasPrefix_iff path x).mpr hp]
  | x :: rest, i + 1, d, hd, hp, hmin => by
    have hx : ¬ HasPrefix path x = true := fun h =>
      hmin 0 x (Nat.succ_pos i) (by simp) ((HasPrefix_iff path x).mp h)
    simp only [firstDeniedPrefix, hx, if_false]
    refine firstDeniedPrefix_of_first path rest i d (by simpa using hd) hp ?_
    intro j e hj he
    exact hmin (j + 1) e (by omega) (by simpa using he)

theorem allowedLoop_iff (path : String) :
    ∀ aps : List String, allowedLoop path aps = true ↔ ∃ ap ∈ aps, ap.data <+: path.data
  | [] => by simp [allowedLoop]
  | ap :: rest => by
    simp only [allowedLoop]
    by_cases h : HasPrefix path ap = true
    · have hp := (HasPrefix_iff path ap).mp h
      simp [h, hp]
    · have hp : ¬ ap.data <+: path.data := fun hp => h ((HasPrefix_iff path ap).mpr hp)
      simp [h, hp, allowedLoop_iff path rest]

theorem hostLoop_iff (host : String) :
    ∀ ahs : List String,
      hostLoop host ahs = true ↔ ∃ ah ∈ ahs, host = ah ∨ ("." ++ ah).data <:+ host.data
  | [] => by simp [hostLoop]
  | ah :: rest => by
    simp only [hostLoop]
    by_cases h : (host == ah || HasSuffix host ("." ++ ah)) = true
    · have h' : host = ah ∨ ("." ++ ah).data <:+ host.data := by
        rcases (Bool.or_eq_true _ _).mp h with h1 | h2
        · exact Or.inl (by simpa using h1)
        · exact Or.inr ((HasSuffix_iff _ _).mp h2)
      rw [if_pos h]
      exact ⟨fun _ => ⟨ah, List.mem_cons_self _ _, h'⟩, fun _ => rfl⟩
    · have h' : ¬ (host = ah ∨ ("." ++ ah).data <:+ host.data) := by
        rintro (h1 | h2)
        · exact h (by simp [h1])
        · exact h (by simp [(HasSuffix_iff _ _).mpr h2])
      rw [if_neg h, hostLoop_iff host rest]
      constructor
      · rintro ⟨e, he, hee⟩
        exact ⟨e, List.mem_cons_of_mem _ he, hee⟩
      · rintro ⟨e, he, hee⟩
        rcases List.mem_cons.mp he with rfl | he'
        · exact absurd hee h'
        · exact ⟨e, he', hee⟩

/-- C12: `ValidatePath(path)` succeeds exactly when (a) no entry of
`DeniedPaths` is a prefix of `path`, (b) `path` does not contain "..", and
(c) `AllowedPaths` is empty or some entry of it is a prefix of `path`. -/
theorem ValidatePath_ok_iff (r : Runner) (path : String) :
    r.ValidatePath path = Except.ok () ↔
      (∀ d ∈ r.config.DeniedPaths, ¬ d.data <+: path.data) ∧
      ¬ "..".data <:+: path.data ∧
      (r.config.AllowedPaths = [] ∨ ∃ ap ∈ r.config.AllowedPaths, ap.data <+: path.data) := by
  unfold Runner.ValidatePath
  cases hden : firstDeniedPrefix path r.config.DeniedPaths with
  | some d =>
    have hnot : ¬ ∀ d ∈ r.config.DeniedPaths, ¬ d.data <+: path.data := fun hall =>
      by rw [(firstDeniedPrefix_eq_none_iff path _).mpr hall] at hden; exact absurd hden (by simp)
    simp [hnot]
  | none =>
    have hall := (firstDeniedPrefix_eq_none_iff path _).mp hden
    by_cases htrav : Contains path ".." = true
    · have hin := (Contains_iff path "..").mp htrav
      simp [htrav, hin]
    · have hin : ¬ "..".data <:+: path.data := fun h => htrav ((Contains_iff path "..").mpr h)
      simp only []
      rw [if_neg htrav]
      by_cases hlen : r.config.AllowedPaths.length > 0
      · have hne : r.config.AllowedPaths ≠ [] := List.length_pos.mp hlen
        rw [if_pos hlen]
        by_cases hal : allowedLoop path r.config.AllowedPaths = true
        · have hex := (allowedLoop_iff path _).mp hal
          simp only [hal, Bool.not_true, Bool.false_eq_true, if_false, true_iff]
          exact ⟨hall, hin, Or.inr hex⟩
        · have hex : ¬ ∃ ap ∈ r.config.AllowedPaths, ap.data <+: path.data := fun h =>
            hal ((allowedLoop_iff path _).mpr h)
          have hal' : allowedLoop path r.config.AllowedPaths = false := by simpa using hal
          simp only [hal', Bool.not_false, if_true]
          constructor
          · intro h
            exact absurd h (by simp)
          · rintro ⟨-, -, h | h⟩
            · exact absurd h hne
            · exact absurd h hex
      · have hnil : r.config.AllowedPaths = [] := by
          cases hl : r.config.AllowedPaths with
          | nil => rfl
          | cons a t => rw [hl] at hlen; simp at hlen
        rw [if_neg hlen]
        simp only [true_iff]
        exact ⟨hall, hin, Or.inl hnil⟩

/-- C12 under the default configuration: "/etc/passwd" fails,
"/tmp/sandbox/file.txt" succeeds, "/opt/data/file.txt" fails. -/
theorem ValidatePath_ok_iff_witness :
    (NewRunner DefaultConfig).ValidatePath "/etc/passwd" ≠ Except.ok () ∧
    (NewRunner DefaultConfig).ValidatePath "/tmp/sandbox/file.txt" = Except.ok () ∧
    (NewRunner DefaultConfig).ValidatePath "/opt/data/file.txt" ≠ Except.ok () :=
  ⟨fun h => absurd ((ValidatePath_ok_iff (NewRunner DefaultConfig) "/etc/passwd").mp h).1
      (by decide),
   (ValidatePath_ok_iff (NewRunner DefaultConfig) "/tmp/sandbox/file.txt").mpr
      ⟨by decide, by decide, by decide⟩,
   fun h => absurd ((ValidatePath_ok_iff (NewRunner DefaultConfig) "/opt/data/file.txt").mp h).2.2
      (by decide)⟩

end Sandbox

namespace Sandbox

open Strings

/-- C13: `ValidatePath` reports the first failing check in the order denial,
traversal, allow-list.  If some denied entry is a prefix of the path, the
error is the denial error naming the first such entry in list order, whether
or not the path contains ".."; if no denied entry is a prefix and the path
contains "..", the error is "path '<path>' contains traversal", whatever
`AllowedPaths` holds. -/
theorem ValidatePath_first_failure (r : Runner) (path : String) :
    (∀ (i : Nat) (d : String), r.config.DeniedPaths[i]? = some d → d.data <+: path.data →
      (∀ j e, j < i → r.config.DeniedPaths[j]? = some e → ¬ e.data <+: path.data) →
      r.ValidatePath path =
        Except.error ("path '" ++ path ++ "' is denied (matches " ++ d ++ ")")) ∧
    ((∀ d ∈ r.config.DeniedPaths, ¬ d.data <+: path.data) → "..".data <:+: path.data →
      ∀ allowed : List String,
        Runner.ValidatePath { config := { r.config with AllowedPaths := allowed } } path =
          Except.error ("path '" ++ path ++ "' contains traversal")) := by
  constructor
  · intro i d hd hp hmin
    have hfirst := firstDeniedPrefix_of_first path r.config.DeniedPaths i d hd hp hmin
    simp only [Runner.ValidatePath, hfirst]
  · intro hall hdots allowed
    have hnone := (firstDeniedPrefix_eq_none_iff path r.config.DeniedPaths).mpr hall
    have htrav := (Contains_iff path "..").mpr hdots
    simp only [Runner.ValidatePath, hnone, htrav, if_true]

/-- C13 at "/tmp/sandbox/../etc" with the default denied paths: the traversal
error for every allow-list; and at "/etc/../x", which also contains "..",
the denial error naming "/etc". -/
theorem ValidatePath_first_failure_witness :
    ((∀ d ∈ (NewRunner DefaultConfig).config.DeniedPaths,
        ¬ d.data <+: "/tmp/sandbox/../etc".data) ∧
      "..".data <:+: "/tmp/sandbox/../etc".data) ∧
    (∀ allowed : List String,
      Runner.ValidatePath
        { config := { (NewRunner DefaultConfig).config with AllowedPaths := allowed } }
        "/tmp/sandbox/../etc" =
      Except.error "path '/tmp/sandbox/../etc' contains traversal") ∧
    (NewRunner DefaultConfig).ValidatePath "/etc/../x" =
      Except.error "path '/etc/../x' is denied (matches /etc)" :=
  ⟨⟨by decide, by decide⟩,
   fun allowed =>
    ((ValidatePath_first_failure (NewRunner DefaultConfig) "/tmp/sandbox/../etc").2
      (by decide) (by decide) allowed).trans (by rfl),
   ((ValidatePath_first_failure (NewRunner DefaultConfig) "/etc/../x").1 0 "/etc"
      (by decide) (by decide) (fun j _ hj => absurd hj (Nat.not_lt_zero j))).trans (by rfl)⟩

/-- C14: `ValidateHost(host)` succeeds exactly when `AllowNetwork` is true and
either `AllowedHosts` is empty or some entry `e` of it satisfies `host = e` or
`host` ends with "." followed by `e`; with the network disabled it fails for
every host. -/
theorem ValidateHost_ok_iff (r : Runner) (host : String) :
    (r.ValidateHost host = Except.ok () ↔
      r.config.AllowNetwork = true ∧
      (r.config.AllowedHosts = [] ∨
        ∃ e ∈ r.config.AllowedHosts, host = e ∨ ("." ++ e).data <:+ host.data)) ∧
    (r.config.AllowNetwork = false →
      r.ValidateHost host = Except.error "network access disabled") := by
  refine ⟨?_, ?_⟩
  · unfold Runner.ValidateHost
    cases hnet : r.config.AllowNetwork with
    | false => simp
    | true =>
      simp only [Bool.not_true, Bool.false_eq_true, if_false, true_and]
      by_cases hlen : r.config.AllowedHosts.length = 0
      · have hnil : r.config.AllowedHosts = [] := List.length_eq_zero.mp hlen
        rw [if_pos hlen]
        simp [hnil]
      · have hne : r.config.AllowedHosts ≠ [] := fun h => hlen (by rw [h]; rfl)
        rw [if_neg hlen]
        by_cases hloop : hostLoop host r.config.AllowedHosts = true
        · have hex := (hostLoop_iff host _).mp hloop
          rw [if_pos hloop]
          simp only [true_iff]
          exact Or.inr hex
        · have hex : ¬ ∃ e ∈ r.config.AllowedHosts,
              host = e ∨ ("." ++ e).data <:+ host.data :=
            fun h => hloop ((hostLoop_iff host _).mpr h)
          rw [if_neg hloop]
          constructor
          · intro h
            exact absurd h (by simp)
          · rintro (h | h)
            · exact absurd h hne
            · exact absurd h hex
  · intro hnet
    simp [Runner.ValidateHost, hnet]

/-- C14 on the configuration of `TestValidateHost`: "api.openai.com" passes
and "evil.com" fails; under the default configuration "anything" fails. -/
theorem ValidateHost_ok_iff_witness :
    (NewRunner hostTestConfig).ValidateHost "api.openai.com" = Except.ok () ∧
    (NewRunner hostTestConfig).ValidateHost "evil.com" ≠ Except.ok () ∧
    (NewRunner DefaultConfig).ValidateHost "anything" =
      Except.error "network access disabled" :=
  ⟨((ValidateHost_ok_iff (NewRunner hostTestConfig) "api.openai.com").1).mpr
      ⟨by decide, Or.inr (by decide)⟩,
   fun h =>
    (((ValidateHost_ok_iff (NewRunner hostTestConfig) "evil.com").1).mp h).2.elim
      (by decide) (by decide),
   (ValidateHost_ok_iff (NewRunner DefaultConfig) "anything").2 (by decide)⟩

end Sandbox

/-! ## The policy check as a whole (C18, C20) -/

namespace Sandbox

open Strings

theorem ite_Contains (s sub : String) (x y : List String) :
    (if Contains s sub = true then x else y) = (if sub.data <:+: s.data then x else y) := by
  by_cases h : Contains s sub = true
  · rw [if_pos h, if_pos ((Contains_iff s sub).mp h)]
  · rw [if_neg h, if_neg (fun h' => h ((Contains_iff s sub).mpr h'))]

theorem ite_networkTest (command n : String) (x y : List String) :
    (if (command == n || HasSuffix command ("/" ++ n)) = true then x else y) =
      (if command = n ∨ ("/" ++ n).data <:+ command.data then x else y) := by
  have hiff : (command == n || HasSuffix command ("/" ++ n)) = true ↔
      (command = n ∨ ("/" ++ n).data <:+ command.data) := by
    rw [Bool.or_eq_true, HasSuffix_iff, beq_iff_eq]
  by_cases h : (command == n || HasSuffix command ("/" ++ n)) = true
  · rw [if_pos h, if_pos (hiff.mp h)]
  · rw [if_neg h, if_neg (fun h' => h (hiff.mpr h'))]

/-- The denied-path loop appends, entry by entry, the violation for the
arguments and then the violation for the command, each when its test holds. -/
theorem deniedLoop_eq (allArgs command : String) :
    ∀ (ds acc : List String),
      deniedLoop allArgs command ds acc =
        acc ++ ds.flatMap (fun d =>
          (if d.data <:+: allArgs.data then ["access to denied path: " ++ d] else []) ++
          (if d.data <:+: command.data then ["command in denied path: " ++ d] else []))
  | [], acc => by simp [deniedLoop]
  | d :: rest, acc => by
    simp only [deniedLoop, List.flatMap_cons]
    rw [deniedLoop_eq allArgs command rest, ite_Contains, ite_Contains]
    by_cases h1 : d.data <:+: allArgs.data <;> by_cases h2 : d.data <:+: command.data <;>
      simp [h1, h2]

theorem networkLoop_eq (command : String) :
    ∀ (ns acc : List String),
      networkLoop command ns acc =
        acc ++ ns.flatMap (fun n =>
          if command = n ∨ ("/" ++ n).data <:+ command.data then
            ["network command '" ++ n ++ "' not allowed"]
          else [])
  | [], acc => by simp [networkLoop]
  | n :: rest, acc => by
    simp only [networkLoop, List.flatMap_cons]
    rw [networkLoop_eq command rest, ite_networkTest]
    by_cases h : command = n ∨ ("/" ++ n).data <:+ command.data
    · simp only [if_pos h, List.append_assoc]
    · simp only [if_neg h, List.nil_append]

theorem dangerousLoop_eq (command allArgs : String) :
    ∀ (ps acc : List String),
      dangerousLoop command allArgs ps acc =
        acc ++ ps.flatMap (fun p =>
          if p.data <:+: (command ++ " " ++ allArgs).data then
            ["dangerous command pattern: " ++ p]
          else [])
  | [], acc => by simp [dangerousLoop]
  | p :: rest, acc => by
    simp only [dangerousLoop, List.flatMap_cons]
    rw [dangerousLoop_eq command allArgs rest, ite_Contains]
    by_cases h : p.data <:+: (command ++ " " ++ allArgs).data
    · simp only [if_pos h, List.append_assoc]
    · simp only [if_neg h, List.nil_append]

/-- The list returned by `checkPolicy` is empty exactly when no check fires. -/
theorem checkPolicy_nil_iff_no_check_fires (r : Runner) (command : String) (args : List String) :
    r.checkPolicy command args = [] ↔
      (∀ d ∈ r.config.DeniedPaths,
        ¬ d.data <:+: (Join args " ").data ∧ ¬ d.data <:+: command.data) ∧
      ¬ "..".data <:+: (Join args " ").data ∧
      (r.config.AllowNetwork = true ∨
        ∀ n ∈ ["curl", "wget", "nc", "ncat", "ssh", "scp", "rsync"],
          command ≠ n ∧ ¬ ("/" ++ n).data <:+ command.data) ∧
      (∀ p ∈ ["rm -rf /", "mkfs", "dd if=/dev/zero", ":()\x7b :|:& \x7d;:"],
        ¬ p.data <:+: (command ++ " " ++ Join args " ").data) := by
  rw [List.eq_nil_iff_forall_not_mem]
  constructor
  · intro hnone
    refine ⟨?_, ?_, ?_, ?_⟩
    · intro d hd
      constructor
      · intro hin
        exact hnone _ ((mem_checkPolicy_iff r command args _).mpr
          (Or.inl ⟨d, hd, Or.inl ⟨(Contains_iff _ _).mpr hin, rfl⟩⟩))
      · intro hin
        exact hnone _ ((mem_checkPolicy_iff r command args _).mpr
          (Or.inl ⟨d, hd, Or.inr ⟨(Contains_iff _ _).mpr hin, rfl⟩⟩))
    · intro hin
      exact hnone _ ((mem_checkPolicy_iff r command args _).mpr
        (Or.inr (Or.inl ⟨(Contains_iff _ _).mpr hin, rfl⟩)))
    · cases hnet : r.config.AllowNetwork with
      | true => exact Or.inl rfl
      | false =>
        refine Or.inr (fun n hn => ⟨?_, ?_⟩)
        · intro heq
          exact hnone _ ((mem_checkPolicy_iff r command args _).mpr
            (Or.inr (Or.inr (Or.inl ⟨hnet, n, hn, Or.inl heq, rfl⟩))))
        · intro hsuf
          exact hnone _ ((mem_checkPolicy_iff r command args _).mpr
            (Or.inr (Or.inr (Or.inl ⟨hnet, n, hn, Or.inr ((HasSuffix_iff _ _).mpr hsuf), rfl⟩))))
    · intro p hp hin
      exact hnone _ ((mem_checkPolicy_iff r command args _).mpr
        (Or.inr (Or.inr (Or.inr ⟨p, hp, (Contains_iff _ _).mpr hin, rfl⟩))))
  · rintro ⟨hden, htrav, hnet, hdang⟩ v hv
    rcases (mem_checkPolicy_iff r command args v).mp hv with
      ⟨d, hd, h | h⟩ | ⟨h, -⟩ | ⟨hoff, n, hn, h, -⟩ | ⟨p, hp, h, -⟩
    · exact (hden d hd).1 ((Contains_iff _ _).mp h.1)
    · exact (hden d hd).2 ((Contains_iff _ _).mp h.1)
    · exact htrav ((Contains_iff _ _).mp h)
    · rcases hnet with hon | hall
      · rw [hon] at hoff
        exact absurd hoff (by simp)
      · rcases h with heq | hsuf
        · exact (hall n hn).1 heq
        · exact (hall n hn).2 ((HasSuffix_iff _ _).mp hsuf)
    · exact hdang p hp ((Contains_iff _ _).mp h)

/-- C18: `checkPolicy` runs all checks and collects all violations: the
returned list is, in this order, for each entry of `DeniedPaths` the violation
for the joined arguments and the violation for the command (each when the
entry occurs there), then the traversal violation when the joined arguments
contain "..", then with `AllowNetwork` false the violation for each of curl,
wget, nc, ncat, ssh, scp, rsync that the command equals or ends with after a
"/", then the violation for each of the four dangerous patterns contained in
command + " " + joined arguments.  So the list is empty exactly when no
check fires. -/
theorem checkPolicy_collects_all_violations (r : Runner) (command : String)
    (args : List String) :
    r.checkPolicy command args =
      r.config.DeniedPaths.flatMap (fun d =>
        (if d.data <:+: (Join args " ").data then ["access to denied path: " ++ d] else []) ++
        (if d.data <:+: command.data then ["command in denied path: " ++ d] else [])) ++
      (if "..".data <:+: (Join args " ").data then ["path traversal detected"] else []) ++
      (if r.config.AllowNetwork = true then []
       else ["curl", "wget", "nc", "ncat", "ssh", "scp", "rsync"].flatMap (fun n =>
        if command = n ∨ ("/" ++ n).data <:+ command.data then
          ["network command '" ++ n ++ "' not allowed"]
        else [])) ++
      ["rm -rf /", "mkfs", "dd if=/dev/zero", ":()\x7b :|:& \x7d;:"].flatMap (fun p =>
        if p.data <:+: (command ++ " " ++ Join args " ").data then
          ["dangerous command pattern: " ++ p]
        else []) ∧
    (r.checkPolicy command args = [] ↔
      (∀ d ∈ r.config.DeniedPaths,
        ¬ d.data <:+: (Join args " ").data ∧ ¬ d.data <:+: command.data) ∧
      ¬ "..".data <:+: (Join args " ").data ∧
      (r.config.AllowNetwork = true ∨
        ∀ n ∈ ["curl", "wget", "nc", "ncat", "ssh", "scp", "rsync"],
          command ≠ n ∧ ¬ ("/" ++ n).data <:+ command.data) ∧
      (∀ p ∈ ["rm -rf /", "mkfs", "dd if=/dev/zero", ":()\x7b :|:& \x7d;:"],
        ¬ p.data <:+: (command ++ " " ++ Join args " ").data)) := by
  refine ⟨?_, checkPolicy_nil_iff_no_check_fires r command args⟩
  unfold Runner.checkPolicy
  simp only []
  rw [dangerousLoop_eq, ite_Contains]
  cases hnet : r.config.AllowNetwork with
  | true =>
    simp only [Bool.not_true, Bool.false_eq_true, if_false, if_true, List.append_nil]
    rw [deniedLoop_eq]
    by_cases ht : "..".data <:+: (Join args " ").data <;> simp [ht, dangerousCmds]
  | false =>
    simp only [Bool.not_false, if_true, Bool.false_eq_true, if_false]
    rw [networkLoop_eq, deniedLoop_eq]
    by_cases ht : "..".data <:+: (Join args " ").data <;>
      simp [ht, dangerousCmds, networkCmds]

/-- C18 under the default configuration: `ls /tmp/sandbox` fires no check and
yields no violation; `/usr/bin/curl ../etc/x mkfs` fires four checks and
yields four violations in the order of the checks; `/etc/ncat /etc/x` yields
both the argument and the command violation for "/etc", then the network
violation. -/
theorem checkPolicy_collects_all_violations_witness :
    (NewRunner DefaultConfig).checkPolicy "ls" ["/tmp/sandbox"] = [] ∧
    (NewRunner DefaultConfig).checkPolicy "/usr/bin/curl" ["../etc/x", "mkfs"] =
      ["access to denied path: /etc", "path traversal detected",
       "network command 'curl' not allowed", "dangerous command pattern: mkfs"] ∧
    (NewRunner DefaultConfig).checkPolicy "/etc/ncat" ["/etc/x"] =
      ["access to denied path: /etc", "command in denied path: /etc",
       "network command 'ncat' not allowed"] :=
  ⟨((checkPolicy_collects_all_violations (NewRunner DefaultConfig) "ls" ["/tmp/sandbox"]).2).mpr
      ⟨by decide, by decide, Or.inr (by decide), by decide⟩,
   ((checkPolicy_collects_all_violations (NewRunner DefaultConfig) "/usr/bin/curl"
      ["../etc/x", "mkfs"]).1).trans (by decide),
   ((checkPolicy_collects_all_violations (NewRunner DefaultConfig) "/etc/ncat"
      ["/etc/x"]).1).trans (by decide)⟩

/-- C20: two configurations that agree on `DeniedPaths` and `AllowNetwork`
give the same violation list for every command and argument list, whatever
their other fields; in particular replacing `AllowedPaths` by any list leaves
the violation list unchanged. -/
theorem checkPolicy_depends_only_on_denied_and_network (r₁ r₂ : Runner) (command : String)
    (args : List String)
    (hdenied : r₁.config.DeniedPaths = r₂.config.DeniedPaths)
    (hnet : r₁.config.AllowNetwork = r₂.config.AllowNetwork) :
    r₁.checkPolicy command args = r₂.checkPolicy command args ∧
    ∀ allowed : List String,
      Runner.checkPolicy { config := { r₁.config with AllowedPaths := allowed } } command args =
        r₂.checkPolicy command args := by
  constructor
  · unfold Runner.checkPolicy
    rw [hdenied, hnet]
  · intro allowed
    unfold Runner.checkPolicy
    simp only []
    rw [hdenied, hnet]

/-- C20 on two configurations that share only the denied paths and the network
flag; and on `cat /opt/data/file.txt` under the default configuration, which
advisory validation rejects as outside the allowed list while the policy check
records nothing. -/
theorem checkPolicy_depends_only_on_denied_and_network_witness :
    DefaultConfig.AllowedPaths ≠ otherFieldsConfig.AllowedPaths ∧
    (NewRunner DefaultConfig).checkPolicy "cat" ["/etc/passwd"] =
      (NewRunner otherFieldsConfig).checkPolicy "cat" ["/etc/passwd"] ∧
    (NewRunner DefaultConfig).ValidatePath "/opt/data/file.txt" =
      Except.error "path '/opt/data/file.txt' not in allowed list" ∧
    (NewRunner DefaultConfig).checkPolicy "cat" ["/opt/data/file.txt"] = [] :=
  ⟨by decide,
   (checkPolicy_depends_only_on_denied_and_network (NewRunner DefaultConfig)
      (NewRunner otherFieldsConfig) "cat" ["/etc/passwd"] (by decide) (by decide)).1,
   by rfl, by decide⟩

end Sandbox

/-! ## The audit event of a result (C15) and the shape of results (C19) -/

namespace Audit

open Sandbox

theorem resultEvent_EventType (toolName command profile : String) (result : Result) :
    (resultEvent toolName command profile result).EventType =
      if result.Violations ≠ [] then EventPolicyViolation
      else if result.Killed = true then EventTimeout
      else EventExecutionComplete := by
  unfold resultEvent
  cases hv : result.Violations with
  | nil => cases hk : result.Killed <;> by_cases he : result.Error = "" <;> simp [he]
  | cons a t => cases hk : result.Killed <;> by_cases he : result.Error = "" <;> simp [he]

theorem resultEvent_fields (toolName command profile : String) (result : Result) :
    (resultEvent toolName command profile result).ExitCode = result.ExitCode ∧
    (resultEvent toolName command profile result).Violations = result.Violations ∧
    (resultEvent toolName command profile result).Error = result.Error ∧
    (resultEvent toolName command profile result).Timestamp = none := by
  unfold resultEvent
  cases hv : result.Violations with
  | nil => cases hk : result.Killed <;> by_cases he : result.Error = "" <;> simp [he]
  | cons a t => cases hk : result.Killed <;> by_cases he : result.Error = "" <;> simp [he]

/-- C15 as stated fails: for a `Result` with `Killed = true` and a non-empty
violation list, `LogResult` emits one event of type "sandbox.policy.violation",
not "sandbox.execution.timeout". -/
theorem LogResult_killed_with_violation_counterexample :
    killedWithViolation.Killed = true ∧
    killedWithViolation.Violations ≠ [] ∧
    (NewLogger.LogResult 0 "tool" "cmd" "profile" killedWithViolation).written.map
      Event.EventType = [EventPolicyViolation] ∧
    EventPolicyViolation ≠ EventTimeout ∧
    ¬ (∀ (l : Logger) (now : Int) (toolName command profile : String) (result : Result),
        result.Killed = true →
        ∃ e, (l.LogResult now toolName command profile result).written = l.written ++ [e] ∧
          e.EventType = EventTimeout) := by
  refine ⟨by decide, by decide, by decide, by decide, ?_⟩
  intro hall
  obtain ⟨e, hw, ht⟩ := hall NewLogger 0 "tool" "cmd" "profile" killedWithViolation (by decide)
  have hmap := congrArg (List.map Event.EventType) hw
  have hleft : (NewLogger.LogResult 0 "tool" "cmd" "profile" killedWithViolation).written.map
      Event.EventType = [EventPolicyViolation] := by decide
  rw [hleft] at hmap
  simp only [NewLogger, List.nil_append, List.map_cons, List.map_nil, ht] at hmap
  exact absurd hmap (by decide)

/-- C15 (amended): `LogResult` emits exactly one event; its type is
"sandbox.policy.violation" if the violation list is non-empty, else
"sandbox.execution.timeout" if `Killed` is true, else
"sandbox.execution.complete"; it carries the result's exit code, violations
and error text.  When `Killed` and a non-empty violation list do not occur
together, this is the classification timeout, else policy violation, else
complete. -/
theorem LogResult_event (l : Logger) (now : Int) (toolName command profile : String)
    (result : Result) :
    ∃ e, (l.LogResult now toolName command profile result).written = l.written ++ [e] ∧
      e.EventType =
        (if result.Violations ≠ [] then EventPolicyViolation
         else if result.Killed = true then EventTimeout
         else EventExecutionComplete) ∧
      e.ExitCode = result.ExitCode ∧
      e.Violations = result.Violations ∧
      e.Error = result.Error ∧
      e.ToolName = toolName ∧ e.Command = command ∧ e.Profile = profile ∧
      (¬ (result.Killed = true ∧ result.Violations ≠ []) →
        e.EventType =
          (if result.Killed = true then EventTimeout
           else if result.Violations ≠ [] then EventPolicyViolation
           else EventExecutionComplete)) := by
  have hty := resultEvent_EventType toolName command profile result
  obtain ⟨hcode, hviol, herr, hts⟩ := resultEvent_fields toolName command profile result
  refine ⟨{ resultEvent toolName command profile result with Timestamp := some now },
    ?_, hty, hcode, hviol, herr, ?_, ?_, ?_, ?_⟩
  · simp [Logger.LogResult, Logger.log, hts]
  · unfold resultEvent
    split_ifs <;> rfl
  · unfold resultEvent
    split_ifs <;> rfl
  · unfold resultEvent
    split_ifs <;> rfl
  · intro hnot
    show (resultEvent toolName command profile result).EventType = _
    rw [hty]
    by_cases hk : result.Killed = true <;> by_cases hv : result.Violations ≠ []
    · exact absurd ⟨hk, hv⟩ hnot
    · simp [hk, hv]
    · simp [hk, hv]
    · simp [hk, hv]

/-- C15 (amended) on three results: a timeout reported by `Execute`, a policy
violation reported by `Execute`, and a clean run. -/
theorem LogResult_event_witness :
    (∃ e, (NewLogger.LogResult 7 "shell" "sleep" "restrictive"
        ((NewRunner timeoutTestConfig).Execute timeoutWorld "sleep" ["5"] []).1).written =
          NewLogger.written ++ [e] ∧ e.EventType = "sandbox.execution.timeout") ∧
    (∃ e, (NewLogger.LogResult 7 "shell" "cat" "restrictive"
        ((NewRunner DefaultConfig).Execute quietWorld "cat" ["/etc/passwd"] []).1).written =
          NewLogger.written ++ [e] ∧ e.EventType = "sandbox.policy.violation") ∧
    (∃ e, (NewLogger.LogResult 7 "shell" "echo" "restrictive"
        ((NewRunner validCommandConfig).Execute echoWorld "echo" ["hello"] []).1).written =
          NewLogger.written ++ [e] ∧ e.EventType = "sandbox.execution.complete") :=
  ⟨(LogResult_event NewLogger 7 "shell" "sleep" "restrictive"
      ((NewRunner timeoutTestConfig).Execute timeoutWorld "sleep" ["5"] []).1).imp
      (fun _ h => ⟨h.1, h.2.1.trans (by decide)⟩),
   (LogResult_event NewLogger 7 "shell" "cat" "restrictive"
      ((NewRunner DefaultConfig).Execute quietWorld "cat" ["/etc/passwd"] []).1).imp
      (fun _ h => ⟨h.1, h.2.1.trans (by decide)⟩),
   (LogResult_event NewLogger 7 "shell" "echo" "restrictive"
      ((NewRunner validCommandConfig).Execute echoWorld "echo" ["hello"] []).1).imp
      (fun _ h => ⟨h.1, h.2.1.trans (by decide)⟩)⟩

end Audit

namespace Sandbox

open Strings

theorem policy_violation_text_ne_empty (text : String) : "policy violation: " ++ text ≠ "" := by
  intro h
  have hdata := congrArg String.data h
  rw [String.data_append] at hdata
  exact absurd hdata (by simp)

/-- C19: every `Result` returned by `Execute` has `Killed` and a non-empty
violation list never both set, and has `ExitCode = -1` and a non-empty `Error`
whenever the violation list is non-empty or `Killed` is true.  Hence the audit
event built from it is of type timeout exactly when `Killed` is set and of
type policy violation exactly when the violation list is non-empty. -/
theorem Execute_result_invariant (w : World) (r : Runner) (command : String)
    (args : List String) (started : List Cmd) :
    ¬ ((r.Execute w command args started).1.Killed = true ∧
        (r.Execute w command args started).1.Violations ≠ []) ∧
    (((r.Execute w command args started).1.Violations ≠ [] ∨
        (r.Execute w command args started).1.Killed = true) →
      (r.Execute w command args started).1.ExitCode = -1 ∧
      (r.Execute w command args started).1.Error ≠ "") ∧
    (∀ toolName cmdText profile : String,
      ((Audit.resultEvent toolName cmdText profile
          (r.Execute w command args started).1).EventType = Audit.EventTimeout ↔
        (r.Execute w command args started).1.Killed = true) ∧
      ((Audit.resultEvent toolName cmdText profile
          (r.Execute w command args started).1).EventType = Audit.EventPolicyViolation ↔
        (r.Execute w command args started).1.Violations ≠ [])) := by
  have hTP : Audit.EventTimeout ≠ Audit.EventPolicyViolation := by decide
  have hCT : Audit.EventExecutionComplete ≠ Audit.EventTimeout := by decide
  have hCP : Audit.EventExecutionComplete ≠ Audit.EventPolicyViolation := by decide
  by_cases hpol : r.checkPolicy command args = []
  · by_cases hctx : (w.Run (r.builtCmd command args)).ctxErr = CtxErr.DeadlineExceeded
    · simp only [Audit.resultEvent_EventType,
        Execute_of_deadline w r command args started hpol hctx]
      refine ⟨by simp, fun _ => ⟨trivial, by decide⟩, fun _ _ _ => ⟨by simp, ?_⟩⟩
      simp [hTP]
    · simp only [Audit.resultEvent_EventType,
        Execute_of_completed w r command args started hpol hctx]
      refine ⟨by simp, ?_, fun _ _ _ => ⟨by simp [hCT], by simp [hCP]⟩⟩
      rintro (h | h)
      · exact absurd rfl h
      · exact absurd h (by simp)
  · simp only [Audit.resultEvent_EventType,
      Execute_of_violations w r command args started hpol]
    refine ⟨by simp, fun _ => ⟨trivial, policy_violation_text_ne_empty _⟩,
      fun _ _ _ => ⟨?_, ?_⟩⟩
    · simp [hpol, hTP.symm]
    · simp [hpol]

/-- C19 on three runs: a policy violation, a timeout and a clean exit. -/
theorem Execute_result_invariant_witness :
    (((NewRunner DefaultConfig).Execute timeoutWorld "cat" ["/etc/passwd"] []).1.Violations ≠ []
      ∧ ((NewRunner DefaultConfig).Execute timeoutWorld "cat" ["/etc/passwd"] []).1.Killed = false
      ∧ ((NewRunner DefaultConfig).Execute timeoutWorld "cat" ["/etc/passwd"] []).1.ExitCode = -1)
    ∧ (((NewRunner timeoutTestConfig).Execute timeoutWorld "sleep" ["5"] []).1.Killed = true
      ∧ ((NewRunner timeoutTestConfig).Execute timeoutWorld "sleep" ["5"] []).1.Violations = []
      ∧ ((NewRunner timeoutTestConfig).Execute timeoutWorld "sleep" ["5"] []).1.ExitCode = -1)
    ∧ ((NewRunner validCommandConfig).Execute echoWorld "echo" ["hello"] []).1.ExitCode = 0 :=
  have hv := Execute_result_invariant timeoutWorld (NewRunner DefaultConfig) "cat"
    ["/etc/passwd"] []
  have ht := Execute_result_invariant timeoutWorld (NewRunner timeoutTestConfig) "sleep" ["5"] []
  ⟨⟨by decide, by decide, (hv.2.1 (Or.inl (by decide))).1⟩,
   ⟨by decide, by decide, (ht.2.1 (Or.inr (by decide))).1⟩,
   by decide⟩

end Sandbox

/-! ## Enforcement against advisory validation (C21) -/

namespace Sandbox

open Strings

theorem firstDeniedPrefix_isSome_of_mem (path : String) :
    ∀ (ds : List String) (d : String), d ∈ ds → d.data <+: path.data →
      ∃ e ∈ ds, firstDeniedPrefix path ds = some e
  | [], d, hd, _ => by simp at hd
  | x :: rest, d, hd, hp => by
    simp only [firstDeniedPrefix]
    by_cases hx : HasPrefix path x = true
    · rw [if_pos hx]
      exact ⟨x, List.mem_cons_self _ _, rfl⟩
    · rw [if_neg hx]
      rcases List.mem_cons.mp hd with heq | hmem
      · subst heq
        exact absurd ((HasPrefix_iff path d).mpr hp) hx
      · obtain ⟨e, he, hfound⟩ := firstDeniedPrefix_isSome_of_mem path rest d hmem hp
        exact ⟨e, List.mem_cons_of_mem _ he, hfound⟩

/-- C21: if a path starts with some entry of `DeniedPaths` or contains "..",
then `ValidatePath` fails on it with a denial or a traversal error, and
`checkPolicy` returns at least one violation for every command and every
argument list that has the path among its arguments. -/
theorem checkPolicy_covers_ValidatePath (r : Runner) (command : String) (args : List String)
    (path : String) (hmem : path ∈ args)
    (hbad : (∃ d ∈ r.config.DeniedPaths, d.data <+: path.data) ∨ "..".data <:+: path.data) :
    ((∃ d ∈ r.config.DeniedPaths, r.ValidatePath path =
        Except.error ("path '" ++ path ++ "' is denied (matches " ++ d ++ ")")) ∨
      r.ValidatePath path = Except.error ("path '" ++ path ++ "' contains traversal")) ∧
    r.checkPolicy command args ≠ [] ∧
    0 < (r.checkPolicy command args).length := by
  have hjoin := infix_Join_of_mem " " args path hmem
  have hne : r.checkPolicy command args ≠ [] := by
    rcases hbad with ⟨d, hd, hp⟩ | hdots
    · have hin : d.data <:+: (Join args " ").data := List.IsInfix.trans hp.isInfix hjoin
      exact List.ne_nil_of_mem ((mem_checkPolicy_iff r command args _).mpr
        (Or.inl ⟨d, hd, Or.inl ⟨(Contains_iff _ _).mpr hin, rfl⟩⟩))
    · have hin : "..".data <:+: (Join args " ").data := List.IsInfix.trans hdots hjoin
      exact List.ne_nil_of_mem ((mem_checkPolicy_iff r command args _).mpr
        (Or.inr (Or.inl ⟨(Contains_iff _ _).mpr hin, rfl⟩)))
  refine ⟨?_, hne, List.length_pos.mpr hne⟩
  by_cases hden : ∃ d ∈ r.config.DeniedPaths, d.data <+: path.data
  · obtain ⟨d, hd, hp⟩ := hden
    obtain ⟨e, he, hfound⟩ := firstDeniedPrefix_isSome_of_mem path _ d hd hp
    refine Or.inl ⟨e, he, ?_⟩
    simp only [Runner.ValidatePath, hfound]
  · have hdots : "..".data <:+: path.data := hbad.resolve_left hden
    have hnone := (firstDeniedPrefix_eq_none_iff path r.config.DeniedPaths).mpr
      (fun d hd hp => hden ⟨d, hd, hp⟩)
    refine Or.inr ?_
    simp only [Runner.ValidatePath, hnone, (Contains_iff path "..").mpr hdots, if_true]

/-- C21 under the default configuration: the denied path "/etc/passwd" as
second argument of `grep`, and the traversal path "/tmp/sandbox/../x" as
argument of `cat`. -/
theorem checkPolicy_covers_ValidatePath_witness :
    ("/etc/passwd" ∈ ["root", "/etc/passwd"] ∧ "/etc".data <+: "/etc/passwd".data) ∧
    (NewRunner DefaultConfig).checkPolicy "grep" ["root", "/etc/passwd"] ≠ [] ∧
    (NewRunner DefaultConfig).ValidatePath "/etc/passwd" =
      Except.error "path '/etc/passwd' is denied (matches /etc)" ∧
    (NewRunner DefaultConfig).checkPolicy "cat" ["/tmp/sandbox/../x"] ≠ [] ∧
    (NewRunner DefaultConfig).ValidatePath "/tmp/sandbox/../x" =
      Except.error "path '/tmp/sandbox/../x' contains traversal" :=
  have h := checkPolicy_covers_ValidatePath (NewRunner DefaultConfig) "grep"
    ["root", "/etc/passwd"] "/etc/passwd" (by decide) (Or.inl ⟨"/etc", by decide, by decide⟩)
  have h' := checkPolicy_covers_ValidatePath (NewRunner DefaultConfig) "cat"
    ["/tmp/sandbox/../x"] "/tmp/sandbox/../x" (by decide) (Or.inr (by decide))
  ⟨⟨by decide, by decide⟩, h.2.1, by rfl, h'.2.1, by rfl⟩

end Sandbox

/-! ## The timeout in nanoseconds (C22) -/

namespace Policy

open Sandbox

theorem wrapInt64_of_inRange (x : Int) (h0 : 0 ≤ x) (h1 : x < 9223372036854775808) :
    wrapInt64 x = x := by
  unfold wrapInt64
  norm_num
  omega

/-- C22 as stated fails: with `TimeoutSec = 9223372037`, a positive 64-bit
value, the product with 10^9 wraps modulo 2^64 to a negative `Timeout` that is
not `TimeoutSec` times 10^9; with `TimeoutSec = 2^55` it wraps to 0, which
`Execute` then replaces by 30 seconds. -/
theorem ToSandboxConfig_timeout_overflow_counterexample :
    (0 < overflowTimeoutConfig.TimeoutSec ∧
      overflowTimeoutConfig.TimeoutSec < 9223372036854775808) ∧
    overflowTimeoutConfig.ToSandboxConfig.Timeout = -9223372036709551616 ∧
    ¬ (0 < overflowTimeoutConfig.ToSandboxConfig.Timeout) ∧
    overflowTimeoutConfig.ToSandboxConfig.Timeout ≠
      overflowTimeoutConfig.TimeoutSec * 1000000000 ∧
    (0 < zeroWrapTimeoutConfig.TimeoutSec ∧
      zeroWrapTimeoutConfig.TimeoutSec < 9223372036854775808) ∧
    zeroWrapTimeoutConfig.ToSandboxConfig.Timeout = 0 ∧
    ((NewRunner zeroWrapTimeoutConfig.ToSandboxConfig).builtCmd "sleep" ["5"]).Timeout =
      30000000000 ∧
    ¬ (∀ pc : ProfileConfig, 0 < pc.TimeoutSec → pc.TimeoutSec < 9223372036854775808 →
        0 < pc.ToSandboxConfig.Timeout) := by
  refine ⟨by decide, by decide, by decide, by decide, by decide, by decide, by decide, ?_⟩
  intro hall
  exact absurd (hall overflowTimeoutConfig (by decide) (by decide)) (by decide)

/-- C22 (amended): for every partial configuration with `TimeoutSec > 0`, the
merged `Timeout` is `TimeoutSec` times 10^9 reduced modulo 2^64 to the signed
64-bit range; when moreover `TimeoutSec` is at most 9,223,372,036 (so that the
product is below 2^63) it is strictly positive and equal to exactly
`TimeoutSec` times 1,000,000,000 nanoseconds. -/
theorem ToSandboxConfig_timeout_nanoseconds (pc : ProfileConfig) (hpos : 0 < pc.TimeoutSec) :
    pc.ToSandboxConfig.Timeout = wrapInt64 (pc.TimeoutSec * 1000000000) ∧
    (pc.TimeoutSec ≤ 9223372036 →
      0 < pc.ToSandboxConfig.Timeout ∧
      pc.ToSandboxConfig.Timeout = pc.TimeoutSec * 1000000000) := by
  have hT : pc.ToSandboxConfig.Timeout = wrapInt64 (pc.TimeoutSec * 1000000000) := by
    rw [ToSandboxConfig_Timeout, if_pos hpos]
    rfl
  refine ⟨hT, fun hmax => ?_⟩
  have hexact : wrapInt64 (pc.TimeoutSec * 1000000000) = pc.TimeoutSec * 1000000000 :=
    wrapInt64_of_inRange _ (by omega) (by omega)
  rw [hT, hexact]
  exact ⟨by omega, rfl⟩

/-- C22 (amended) on the "web-tools" profile of the tests (30 seconds) and on
the largest timeout that does not wrap. -/
theorem ToSandboxConfig_timeout_nanoseconds_witness :
    0 < webToolsConfig.TimeoutSec ∧
    webToolsConfig.TimeoutSec ≤ 9223372036 ∧
    0 < webToolsConfig.ToSandboxConfig.Timeout ∧
    webToolsConfig.ToSandboxConfig.Timeout = 30000000000 ∧
    (ProfileConfig.ToSandboxConfig { ProfileConfig.zero with TimeoutSec := 9223372036 }).Timeout
      = 9223372036000000000 :=
  have h := ToSandboxConfig_timeout_nanoseconds webToolsConfig (by decide)
  have h' := ToSandboxConfig_timeout_nanoseconds
    { ProfileConfig.zero with TimeoutSec := 9223372036 } (by decide)
  ⟨by decide, by decide, (h.2 (by decide)).1, (h.2 (by decide)).2.trans (by decide),
   (h'.2 (by decide)).2.trans (by decide)⟩

end Policy
